import Mathlib

/-!
Shallow embedding of the response-decoding core of PyDoctorSender
(`pydoctorsender/xml2dict.py` and `pydoctorsender/response.py`).

Python values flowing through the decoder are strings, dicts (insertion
ordered, modelled as association lists), lists, ints (appearing only as
fallback dict keys) and `None`.  Python exceptions the decoder can raise
are modelled as explicit error values of type `PyErr`; computations that
may raise return `Except PyErr PyVal`.

All definitions are structurally recursive so that concrete runs reduce
inside the kernel (`rfl` / `decide`).
-/

/-- A Python value as used by the decoder: `str`, ordered `dict`
(association list, first match wins on lookup), `list`, `int`, `None`. -/
inductive PyVal where
  | vStr (s : String)
  | vInt (n : Nat)
  | vDict (entries : List (PyVal × PyVal))
  | vList (items : List PyVal)
  | vNone

/-- The Python exceptions the decoder can raise.  `drsReturnError` models
`DrsReturnError` (the service-error signal) and `drsParserError` models
`DrsParserError`; the others are builtin Python exceptions
(`KeyError`, `TypeError`, `ValueError`, `IndexError`,
`UnboundLocalError`). -/
inductive PyErr where
  | keyError (k : PyVal)
  | typeError
  | valueError
  | indexError
  | unboundLocal
  | drsReturnError (msg : PyVal)
  | drsParserError

namespace PyVal

mutual
/-- Structural equality decision for `PyVal` (Python `==` between the
values compared in this program; every comparison performed by the source
has a scalar on at least one side, where structural and Python equality
agree). -/
def pyDecEq : (x y : PyVal) → Decidable (x = y)
  | .vStr a, .vStr b =>
      match decEq a b with
      | isTrue h => isTrue (by rw [h])
      | isFalse h => isFalse (fun hh => h (by cases hh; rfl))
  | .vStr _, .vInt _ => isFalse (fun h => PyVal.noConfusion h)
  | .vStr _, .vDict _ => isFalse (fun h => PyVal.noConfusion h)
  | .vStr _, .vList _ => isFalse (fun h => PyVal.noConfusion h)
  | .vStr _, .vNone => isFalse (fun h => PyVal.noConfusion h)
  | .vInt _, .vStr _ => isFalse (fun h => PyVal.noConfusion h)
  | .vInt a, .vInt b =>
      match decEq a b with
      | isTrue h => isTrue (by rw [h])
      | isFalse h => isFalse (fun hh => h (by cases hh; rfl))
  | .vInt _, .vDict _ => isFalse (fun h => PyVal.noConfusion h)
  | .vInt _, .vList _ => isFalse (fun h => PyVal.noConfusion h)
  | .vInt _, .vNone => isFalse (fun h => PyVal.noConfusion h)
  | .vDict _, .vStr _ => isFalse (fun h => PyVal.noConfusion h)
  | .vDict _, .vInt _ => isFalse (fun h => PyVal.noConfusion h)
  | .vDict a, .vDict b =>
      match pyDecEqE a b with
      | isTrue h => isTrue (by rw [h])
      | isFalse h => isFalse (fun hh => h (by cases hh; rfl))
  | .vDict _, .vList _ => isFalse (fun h => PyVal.noConfusion h)
  | .vDict _, .vNone => isFalse (fun h => PyVal.noConfusion h)
  | .vList _, .vStr _ => isFalse (fun h => PyVal.noConfusion h)
  | .vList _, .vInt _ => isFalse (fun h => PyVal.noConfusion h)
  | .vList _, .vDict _ => isFalse (fun h => PyVal.noConfusion h)
  | .vList a, .vList b =>
      match pyDecEqL a b with
      | isTrue h => isTrue (by rw [h])
      | isFalse h => isFalse (fun hh => h (by cases hh; rfl))
  | .vList _, .vNone => isFalse (fun h => PyVal.noConfusion h)
  | .vNone, .vStr _ => isFalse (fun h => PyVal.noConfusion h)
  | .vNone, .vInt _ => isFalse (fun h => PyVal.noConfusion h)
  | .vNone, .vDict _ => isFalse (fun h => PyVal.noConfusion h)
  | .vNone, .vList _ => isFalse (fun h => PyVal.noConfusion h)
  | .vNone, .vNone => isTrue rfl

/-- Equality decision for dict entry lists. -/
def pyDecEqE : (a b : List (PyVal × PyVal)) → Decidable (a = b)
  | [], [] => isTrue rfl
  | [], _ :: _ => isFalse (fun h => List.noConfusion h)
  | _ :: _, [] => isFalse (fun h => List.noConfusion h)
  | (k1, v1) :: t1, (k2, v2) :: t2 =>
      match pyDecEq k1 k2, pyDecEq v1 v2, pyDecEqE t1 t2 with
      | isTrue h1, isTrue h2, isTrue h3 => isTrue (by rw [h1, h2, h3])
      | isFalse h1, _, _ => isFalse (fun hh => by cases hh; exact h1 rfl)
      | _, isFalse h2, _ => isFalse (fun hh => by cases hh; exact h2 rfl)
      | _, _, isFalse h3 => isFalse (fun hh => by cases hh; exact h3 rfl)

/-- Equality decision for value lists. -/
def pyDecEqL : (a b : List PyVal) → Decidable (a = b)
  | [], [] => isTrue rfl
  | [], _ :: _ => isFalse (fun h => List.noConfusion h)
  | _ :: _, [] => isFalse (fun h => List.noConfusion h)
  | x :: t1, y :: t2 =>
      match pyDecEq x y, pyDecEqL t1 t2 with
      | isTrue h1, isTrue h2 => isTrue (by rw [h1, h2])
      | isFalse h1, _ => isFalse (fun hh => by cases hh; exact h1 rfl)
      | _, isFalse h2 => isFalse (fun hh => by cases hh; exact h2 rfl)
end

instance : DecidableEq PyVal := pyDecEq

instance : DecidableEq PyErr := fun x y => by
  cases x <;> cases y
  case keyError.keyError a b =>
    exact if h : a = b then isTrue (by rw [h]) else isFalse (fun hh => h (by cases hh; rfl))
  case drsReturnError.drsReturnError a b =>
    exact if h : a = b then isTrue (by rw [h]) else isFalse (fun hh => h (by cases hh; rfl))
  all_goals first
    | exact isTrue rfl
    | exact isFalse (fun h => PyErr.noConfusion h)

instance {ε α : Type} [DecidableEq ε] [DecidableEq α] : DecidableEq (Except ε α) :=
  fun x y =>
    match x, y with
    | .ok a, .ok b =>
        if h : a = b then isTrue (by rw [h])
        else isFalse (fun hh => h (by cases hh; rfl))
    | .error a, .error b =>
        if h : a = b then isTrue (by rw [h])
        else isFalse (fun hh => h (by cases hh; rfl))
    | .ok _, .error _ => isFalse (fun h => Except.noConfusion h)
    | .error _, .ok _ => isFalse (fun h => Except.noConfusion h)

/-- `d[k]` lookup in an ordered dict: first entry whose key equals `k`. -/
def assocLookup : List (PyVal × PyVal) → PyVal → Option PyVal
  | [], _ => none
  | (a, b) :: t, k => if a = k then some b else assocLookup t k

/-- `d[k] = v` on an ordered dict: replace the value in place when the key
is present (position kept), otherwise append the new entry at the end. -/
def assocSet : List (PyVal × PyVal) → PyVal → PyVal → List (PyVal × PyVal)
  | [], k, v => [(k, v)]
  | (a, b) :: t, k, v => if a = k then (a, v) :: t else (a, b) :: assocSet t k v

/-- Python hashability of the values in play: dicts and lists are
unhashable (using one as a dict key raises `TypeError`). -/
def isHashable : PyVal → Bool
  | vDict _ => false
  | vList _ => false
  | _ => true

/-- Subscription `x[k]`: dict lookup (`KeyError` when absent, `TypeError`
for an unhashable key), list/str indexing by int (`IndexError` out of
range, `TypeError` for a non-int index), `TypeError` on
non-subscriptable values. -/
def pySub : PyVal → PyVal → Except PyErr PyVal
  | vDict entries, k =>
      if isHashable k then
        match assocLookup entries k with
        | some v => .ok v
        | none => .error (.keyError k)
      else .error .typeError
  | vList items, vInt i =>
      match items[i]? with
      | some v => .ok v
      | none => .error .indexError
  | vList _, _ => .error .typeError
  | vStr s, vInt i =>
      match s.data[i]? with
      | some c => .ok (vStr (String.mk [c]))
      | none => .error .indexError
  | vStr _, _ => .error .typeError
  | vInt _, _ => .error .typeError
  | vNone, _ => .error .typeError

/-- `for x in v`: a list yields its items, a dict its keys in order, a
string its characters as 1-character strings; ints and `None` are not
iterable. -/
def pyIter : PyVal → Except PyErr (List PyVal)
  | vList items => .ok items
  | vDict entries => .ok (entries.map Prod.fst)
  | vStr s => .ok (s.data.map fun c => vStr (String.mk [c]))
  | vInt _ => .error .typeError
  | vNone => .error .typeError

/-- Conversion of one element of a `dict.update` sequence argument to a
key/value pair: 2-element lists and 2-character strings become pairs,
iterables of a length other than 2 raise `ValueError`, non-iterable
elements raise `TypeError` (a 2-entry dict element yields its two keys,
since iterating a dict yields keys). -/
def pairOfElem : PyVal → Except PyErr (PyVal × PyVal)
  | .vList [a, b] => .ok (a, b)
  | .vList _ => .error .valueError
  | .vStr s =>
      match s.data with
      | [a, b] => .ok (.vStr (String.mk [a]), .vStr (String.mk [b]))
      | _ => .error .valueError
  | .vDict [(k1, _), (k2, _)] => .ok (k1, k2)
  | .vDict _ => .error .valueError
  | .vInt _ => .error .typeError
  | .vNone => .error .typeError

/-- `dict.update` with a sequence argument: fold the elements as
key/value pairs (unhashable keys raise `TypeError`). -/
def pyUpdateSeq : List (PyVal × PyVal) → List PyVal → Except PyErr (List (PyVal × PyVal))
  | acc, [] => .ok acc
  | acc, e :: rest =>
      match pairOfElem e with
      | .error err => .error err
      | .ok (k, v) =>
          if isHashable k then pyUpdateSeq (assocSet acc k v) rest
          else .error .typeError

/-- `acc.update(x)`: merging a dict applies its entries in order; updating
from a non-empty string raises `ValueError` (each character is a length-1
sequence, not a pair) while the empty string is a no-op; updating from
`None` or an int raises `TypeError` (not iterable). -/
def pyUpdate (acc : List (PyVal × PyVal)) : PyVal → Except PyErr (List (PyVal × PyVal))
  | .vDict pairs => .ok (pairs.foldl (fun a p => assocSet a p.1 p.2) acc)
  | .vStr s => if s.data = [] then .ok acc else .error .valueError
  | .vList items => pyUpdateSeq acc items
  | .vInt _ => .error .typeError
  | .vNone => .error .typeError

end PyVal

namespace DrsResponse

open PyVal

/-- The scan of the generic (non-`listName`) branch of
`DrsResponse._key_value` (response.py:56-58): walk the records, and for
every record whose `item.key` is `"name"` or `"language"` rebind `v` to
that record's `item.value`; the accumulator is `none` while `v` is still
unbound. -/
def displayScan : List PyVal → Option PyVal → Except PyErr (Option PyVal)
  | [], v => .ok v
  | kv :: rest, v =>
      match pySub kv (.vStr "item") with
      | .error e => .error e
      | .ok it =>
        match pySub it (.vStr "key") with
        | .error e => .error e
        | .ok key =>
          if key = .vStr "name" ∨ key = .vStr "language" then
            match pySub it (.vStr "value") with
            | .error e => .error e
            | .ok value => displayScan rest (some value)
          else displayScan rest v

mutual

/-- `DrsResponse._key_value` (response.py:32-79).  A dict dispatches on
its `"item"` entry; a list is folded index by index with a
`TypeError`/`ValueError` fallback; a string is returned unchanged; any
other value reaches the final `else`, which prints and implicitly
returns `None`. -/
def keyValue : PyVal → Except PyErr PyVal
  | .vDict entries => kvFindItem entries
  | .vList items =>
      match kvFold items 0 [] with
      | .error e => .error e
      | .ok d => .ok (.vDict d)
  | .vStr s => .ok (.vStr s)
  | .vInt _ => .ok .vNone
  | .vNone => .ok .vNone

/-- Evaluation of `ele['item']` inside `_key_value`: first-match walk of
the dict entries (`KeyError` when no `"item"` key exists), then dispatch
on the found value. -/
def kvFindItem : List (PyVal × PyVal) → Except PyErr PyVal
  | [] => .error (.keyError (.vStr "item"))
  | (k, v) :: rest => if k = .vStr "item" then kvItem v else kvFindItem rest

/-- The dict arm of `_key_value` after `ele['item']` has been fetched
(response.py:34-62).
* a dict: return `{item['key']: item['value']}` — the value is stored
  raw, with no recursive unwrapping (an unhashable key would raise
  `TypeError`);
* a string: returned unchanged;
* a list: inspect `item[0]['item']['key']`; the `'listName'` branch folds
  the remaining records into a nested dict, the generic branch scans for
  a `'name'`/`'language'` record; both end in `return {k: v}`, where in
  the generic branch `v` may never have been assigned
  (`UnboundLocalError`);
* anything else: `raise DrsParserError`. -/
def kvItem : PyVal → Except PyErr PyVal
  | .vDict ientries =>
      match assocLookup ientries (.vStr "key") with
      | none => .error (.keyError (.vStr "key"))
      | some key =>
        match assocLookup ientries (.vStr "value") with
        | none => .error (.keyError (.vStr "value"))
        | some value =>
            if isHashable key then .ok (.vDict [(key, value)])
            else .error .typeError
  | .vStr s => .ok (.vStr s)
  | .vList itemList =>
      match itemList with
      | [] => .error .indexError
      | first :: _ =>
        match pySub first (.vStr "item") with
        | .error e => .error e
        | .ok fitem =>
          match pySub fitem (.vStr "key") with
          | .error e => .error e
          | .ok fkey =>
            if fkey = .vStr "listName" then
              match pySub fitem (.vStr "value") with
              | .error e => .error e
              | .ok k =>
                match kvListName itemList k [] with
                | .error e => .error e
                | .ok v =>
                    if isHashable k then .ok (.vDict [(k, .vDict v)])
                    else .error .typeError
            else
              match pySub fitem (.vStr "value") with
              | .error e => .error e
              | .ok k =>
                match displayScan itemList none with
                | .error e => .error e
                | .ok none => .error .unboundLocal
                | .ok (some v) =>
                    if isHashable k then .ok (.vDict [(k, v)])
                    else .error .typeError
  | .vInt _ => .error .drsParserError
  | .vNone => .error .drsParserError

/-- The `'listName'` loop (response.py:46-51): fold the records into `v`,
skipping every record whose `item.value` equals the grouping key `k`;
failures inside the loop propagate (no `try` here). -/
def kvListName : List PyVal → PyVal → List (PyVal × PyVal) → Except PyErr (List (PyVal × PyVal))
  | [], _, v => .ok v
  | kv :: rest, k, v =>
      match pySub kv (.vStr "item") with
      | .error e => .error e
      | .ok it =>
        match pySub it (.vStr "value") with
        | .error e => .error e
        | .ok value =>
          if value = k then kvListName rest k v
          else
            match keyValue kv with
            | .error e => .error e
            | .ok r =>
              match pyUpdate v r with
              | .error e => .error e
              | .ok v2 => kvListName rest k v2

/-- The list arm of `_key_value` (response.py:64-72): fold by index; only
`TypeError` and `ValueError` from the recursive unwrap (or from the
`update`) are caught, in which case `res_dict.update({i: ele[i]['item']})`
runs — and any failure of that fallback itself propagates. -/
def kvFold : List PyVal → Nat → List (PyVal × PyVal) → Except PyErr (List (PyVal × PyVal))
  | [], _, acc => .ok acc
  | child :: rest, i, acc =>
      match (match keyValue child with
             | .ok r => pyUpdate acc r
             | .error e => .error e) with
      | .ok acc2 => kvFold rest (i + 1) acc2
      | .error e =>
          if e = .typeError ∨ e = .valueError then
            match pySub child (.vStr "item") with
            | .error e2 => .error e2
            | .ok raw => kvFold rest (i + 1) (assocSet acc (.vInt i) raw)
          else .error e

end

/-- The scan loop of `DrsResponse._drs_reduce_dict` (response.py:85-94),
iterating `enumerate(res_list)`.  `full` is `res_list` itself (used for
the positional access `res_list[i + 1]`), the last argument the current
binding of `res_dict` (`none` while still unbound).  A record with
`item.key == 'error'` and `item.value == 'true'` raises
`DrsReturnError(res_list[i + 1]['item']['value'])`; a record with
`item.key == 'msg'` rebinds `res_dict` to `_key_value` of its
`item.value`. -/
def drsLoop (full : PyVal) : List PyVal → Nat → Option PyVal → Except PyErr (Option PyVal)
  | [], _, acc => .ok acc
  | sub :: rest, i, acc =>
      match pySub sub (.vStr "item") with
      | .error e => .error e
      | .ok item =>
        match pySub item (.vStr "key") with
        | .error e => .error e
        | .ok key =>
          if key = .vStr "error" then
            match pySub item (.vStr "value") with
            | .error e => .error e
            | .ok value =>
              if value = .vStr "true" then
                match pySub full (.vInt (i + 1)) with
                | .error e => .error e
                | .ok nxt =>
                  match pySub nxt (.vStr "item") with
                  | .error e => .error e
                  | .ok nitem =>
                    match pySub nitem (.vStr "value") with
                    | .error e => .error e
                    | .ok nval => .error (.drsReturnError nval)
              else drsLoop full rest (i + 1) acc
          else if key = .vStr "msg" then
            match pySub item (.vStr "value") with
            | .error e => .error e
            | .ok value =>
              match keyValue value with
              | .error e => .error e
              | .ok r => drsLoop full rest (i + 1) (some r)
          else drsLoop full rest (i + 1) acc

/-- `DrsResponse._drs_reduce_dict` (response.py:81-95) applied to the
(already namespace-normalized) tree `d`: descend the fixed path
`Envelope → Body → {ns1}webserviceResponse → webserviceReturn`, scan the
payload, and return the final binding of `res_dict`; if no `'msg'`
record ever bound it, `return res_dict` raises `UnboundLocalError`. -/
def drsReduceDict (d : PyVal) : Except PyErr PyVal :=
  match pySub d (.vStr "Envelope") with
  | .error e => .error e
  | .ok env =>
    match pySub env (.vStr "Body") with
    | .error e => .error e
    | .ok body =>
      match pySub body (.vStr "\x7bns1\x7dwebserviceResponse") with
      | .error e => .error e
      | .ok resp =>
        match pySub resp (.vStr "webserviceReturn") with
        | .error e => .error e
        | .ok ret =>
          match pyIter ret with
          | .error e => .error e
          | .ok items =>
            match drsLoop ret items 0 none with
            | .error e => .error e
            | .ok (some r) => .ok r
            | .ok none => .error .unboundLocal

/-- A well-shaped payload record `{"item": {"key": k, "value": v}}`. -/
def mkRecV (k : String) (v : PyVal) : PyVal :=
  .vDict [(.vStr "item", .vDict [(.vStr "key", .vStr k), (.vStr "value", v)])]

/-- A payload record whose key and value are both strings. -/
def mkRec (k v : String) : PyVal :=
  mkRecV k (.vStr v)

/-- The canonical normalized envelope around a payload, i.e. the shape
`_drs_reduce_dict` destructures at response.py:83. -/
def mkEnvelope (payload : PyVal) : PyVal :=
  .vDict [(.vStr "Envelope", .vDict [(.vStr "Body", .vDict
    [(.vStr "\x7bns1\x7dwebserviceResponse", .vDict
      [(.vStr "webserviceReturn", payload)])])])]

/-- The SOAP envelope namespace string that `_remove_env_str` strips
(response.py:102). -/
def envString : String := "\x7bhttp://schemas.xmlsoap.org/soap/envelope/\x7d"

/-- The same namespace string as a character list. -/
def envChars : List Char := envString.data

/-- Python `pat in s` (substring containment, character-list form). -/
def listContains (pat : List Char) : List Char → Bool
  | [] => decide (pat = [])
  | c :: rest => pat.isPrefixOf (c :: rest) || listContains pat rest

/-- Helper for `listReplace`: while `skip` is positive the characters
belong to an occurrence that was already replaced and are dropped. -/
def listReplaceAux (pat rep : List Char) : List Char → Nat → List Char
  | [], _ => []
  | _ :: rest, skip + 1 => listReplaceAux pat rep rest skip
  | c :: rest, 0 =>
      if pat.isPrefixOf (c :: rest) && !pat.isEmpty then
        rep ++ listReplaceAux pat rep rest (pat.length - 1)
      else c :: listReplaceAux pat rep rest 0

/-- Python `s.replace(pat, rep)` for a non-empty `pat`: replace all
occurrences, left to right, non-overlapping. -/
def listReplace (pat rep s : List Char) : List Char := listReplaceAux pat rep s 0

/-- `'{http://schemas.xmlsoap.org/soap/envelope/}' in k`. -/
def envContains (s : String) : Bool := listContains envChars s.data

/-- `k.replace('{http://schemas.xmlsoap.org/soap/envelope/}', '')`. -/
def envStrip (s : String) : String := String.mk (listReplace envChars [] s.data)

mutual

/-- The in-place mutation `DrsResponse._remove_env_str` performs on a dict
object (response.py:97-105).  The `return d` sits *inside* the `for`
loop, so only the first entry is ever processed: its value is first
mutated recursively when it is a dict, then, if the envelope namespace
string occurs in the (string) key, the entry is popped and re-inserted
under the stripped key — which moves it to the end of the dict.  All
remaining entries are untouched.  (On a non-string key Python would
raise `TypeError` at the `in` test; every key of a parsed tree is a
string, so that case is left as the identity here.)  Called on a
non-dict the source would raise `AttributeError` on `.items()`; it is
only ever called on dicts. -/
def removeEnvMut : PyVal → PyVal
  | .vDict entries => .vDict (removeEnvEntries entries)
  | x => x

/-- One pass of the loop body of `_remove_env_str` over the entry list:
processes only the head entry (the `return` inside the loop). -/
def removeEnvEntries : List (PyVal × PyVal) → List (PyVal × PyVal)
  | [] => []
  | (k, v) :: rest =>
      match k with
      | .vStr s =>
          if envContains s then
            PyVal.assocSet rest (.vStr (envStrip s)) (removeEnvChild v)
          else (k, removeEnvChild v) :: rest
      | _ => (k, removeEnvChild v) :: rest

/-- The `if type(v) == dict: v = self._remove_env_str(v)` step: dict
values are mutated recursively, anything else is left alone. -/
def removeEnvChild : PyVal → PyVal
  | .vDict l => .vDict (removeEnvEntries l)
  | x => x

end

/-- The *return value* of `_remove_env_str`: for a non-empty dict the
loop returns the mutated dict on its first iteration; for an empty dict
the loop body never runs and the function falls through, returning
`None`. -/
def removeEnvStr : PyVal → PyVal
  | .vDict [] => .vNone
  | .vDict l => removeEnvMut (.vDict l)
  | x => x

end DrsResponse

namespace Xml2Dict

/-- Whitespace as recognized by Python's default `str.strip`
(ASCII portion). -/
def isPyWhitespace (c : Char) : Bool :=
  c = ' ' || c = '\t' || c = '\n' || c = '\r' || c = '\x0b' || c = '\x0c'

/-- Python `text.strip()`: drop leading and trailing whitespace. -/
def pyStrip (s : String) : String :=
  String.mk (((s.data.dropWhile isPyWhitespace).reverse.dropWhile isPyWhitespace).reverse)

/-- An XML element as seen through `xml.etree.ElementTree`: a tag, the
text directly under the element (`None` when absent), and the list of
child elements in document order. -/
inductive XmlElem where
  | mk (tag : String) (text : Option String) (children : List XmlElem)

/-- The element's tag. -/
def XmlElem.tag : XmlElem → String
  | .mk t _ _ => t

/-- The element's direct text, `None` when absent. -/
def XmlElem.text : XmlElem → Option String
  | .mk _ t _ => t

/-- The element's children in document order. -/
def XmlElem.children : XmlElem → List XmlElem
  | .mk _ _ c => c

mutual

/-- `parse` from xml2dict.py:10-29.  A childless element yields its
stripped text (empty string when the text is `None`); when the child
tags contain a duplicate the element yields the ordered list of
single-entry dicts `{tag: parse(child)}`; when all child tags are
distinct it yields the ordered dict of `(tag, parse(child))` pairs. -/
def parse : XmlElem → PyVal
  | .mk _ text [] =>
      match text with
      | some t => .vStr (pyStrip t)
      | none => .vStr ""
  | .mk _ _ (c :: cs) =>
      if ((c :: cs).map XmlElem.tag).Nodup then
        .vDict (parseList (c :: cs))
      else
        .vList ((parseList (c :: cs)).map fun p => .vDict [p])

/-- The `p_childs` list: `(child.tag, parse(child))` in document order. -/
def parseList : List XmlElem → List (PyVal × PyVal)
  | [] => []
  | c :: cs => (.vStr c.tag, parse c) :: parseList cs

end

/-- `xml2dict` (xml2dict.py:4-7): wrap the parsed root in a single-entry
dict keyed by the root tag. -/
def xml2dict (root : XmlElem) : PyVal :=
  .vDict [(.vStr root.tag, parse root)]

end Xml2Dict

namespace DrsResponse

open PyVal

/-- A payload record with string key and string value that does not
trigger the error branch of the reduce loop. -/
def Benign (r : PyVal) : Prop :=
  ∃ (k v : String), r = mkRec k v ∧ ¬(k = "error" ∧ v = "true")

/-- A `Benign` record whose key is also not `"msg"`, so the reduce loop
passes over it without touching `res_dict`. -/
def BenignNonMsg (r : PyVal) : Prop :=
  ∃ (k v : String), r = mkRec k v ∧ ¬(k = "error" ∧ v = "true") ∧ k ≠ "msg"

/-- A well-shaped record (string key, arbitrary value). -/
def Shaped (r : PyVal) : Prop :=
  ∃ (k : String) (v : PyVal), r = mkRecV k v

/-- A shaped record whose key is neither of the display-name fields
`"name"` / `"language"`. -/
def NonDisplay (r : PyVal) : Prop :=
  ∃ (k : String) (v : PyVal), r = mkRecV k v ∧ k ≠ "name" ∧ k ≠ "language"

/-- An element of a payload list that `_key_value` unwraps successfully
into a dict all of whose keys are strings. -/
def GoodElem (r : PyVal) : Prop :=
  ∃ pairs, keyValue r = .ok (.vDict pairs) ∧ ∀ p ∈ pairs, ∃ s, p.1 = PyVal.vStr s

/-- Whether a decode result is a successfully produced dict. -/
def isOkDict : Except PyErr PyVal → Bool
  | .ok (.vDict _) => true
  | _ => false

/-- Look a key up inside a successfully produced dict result. -/
def lookupResult (x : Except PyErr PyVal) (k : PyVal) : Option PyVal :=
  match x with
  | .ok (.vDict d) => assocLookup d k
  | _ => none

/-- The envelope descent of `_drs_reduce_dict` (response.py:83): the
chained subscripts
`d['Envelope']['Body']['{ns1}webserviceResponse']['webserviceReturn']`,
each failing subscript propagating its own exception. -/
def envDescend (d : PyVal) : Except PyErr PyVal :=
  match pySub d (.vStr "Envelope") with
  | .error e => .error e
  | .ok env =>
    match pySub env (.vStr "Body") with
    | .error e => .error e
    | .ok body =>
      match pySub body (.vStr "\x7bns1\x7dwebserviceResponse") with
      | .error e => .error e
      | .ok resp => pySub resp (.vStr "webserviceReturn")

/-- Whether an exception is a builtin Python exception, as opposed to the
two library-defined failures `DrsParserError` (the model of
`ResponseParseError`) and `DrsReturnError` (the model of
`ServiceError`). -/
def isBuiltinErr : PyErr → Bool
  | .drsParserError => false
  | .drsReturnError _ => false
  | _ => true

mutual

/-- Whether a value contains no `int` and no `None` anywhere.  Every
value produced by the XML parser satisfies this: `parse` only ever
builds strings, dicts and lists. -/
def intNoneFree : PyVal → Bool
  | .vStr _ => true
  | .vInt _ => false
  | .vNone => false
  | .vDict entries => entriesFree entries
  | .vList items => itemsFree items

/-- `intNoneFree` for every key and value of a dict entry list. -/
def entriesFree : List (PyVal × PyVal) → Bool
  | [] => true
  | (k, v) :: t => intNoneFree k && intNoneFree v && entriesFree t

/-- `intNoneFree` for every element of a list. -/
def itemsFree : List PyVal → Bool
  | [] => true
  | x :: t => intNoneFree x && itemsFree t

end

end DrsResponse


/-! ## Lemmas about the ordered-dict operations -/

namespace PyVal

theorem assocLookup_assocSet_self (a : List (PyVal × PyVal)) (k v : PyVal) :
    assocLookup (assocSet a k v) k = some v := by
  induction a with
  | nil => simp [assocLookup, assocSet]
  | cons p t ih =>
      obtain ⟨x, y⟩ := p
      by_cases h : x = k
      · subst h; simp [assocLookup, assocSet]
      · simp [assocLookup, assocSet, h, ih]

theorem assocLookup_assocSet_ne (a : List (PyVal × PyVal)) (k' v k : PyVal)
    (h : k' ≠ k) : assocLookup (assocSet a k' v) k = assocLookup a k := by
  induction a with
  | nil => simp [assocLookup, assocSet, h]
  | cons p t ih =>
      obtain ⟨x, y⟩ := p
      by_cases hx : x = k'
      · subst hx; simp [assocLookup, assocSet, h]
      · simp [assocLookup, assocSet, hx, ih]

/-- Updating with string-keyed pairs never touches an int-keyed entry. -/
theorem foldl_assocSet_int_lookup (pairs : List (PyVal × PyVal))
    (acc : List (PyVal × PyVal)) (n : Nat)
    (h : ∀ p ∈ pairs, ∃ s, p.1 = PyVal.vStr s) :
    assocLookup (pairs.foldl (fun a p => assocSet a p.1 p.2) acc) (.vInt n) =
      assocLookup acc (.vInt n) := by
  induction pairs generalizing acc with
  | nil => simp
  | cons p t ih =>
      obtain ⟨s, hs⟩ := h p (by simp)
      have hne : p.1 ≠ PyVal.vInt n := by rw [hs]; exact fun hh => PyVal.noConfusion hh
      rw [List.foldl_cons, ih _ (fun q hq => h q (by simp [hq])),
        assocLookup_assocSet_ne _ _ _ _ hne]

end PyVal

/-! ## Lemmas about the reduce loop -/

namespace DrsResponse

open PyVal

theorem drsLoop_cons_rec (full : PyVal) (k v : String) (rest : List PyVal)
    (i : Nat) (acc : Option PyVal) (hne : ¬(k = "error" ∧ v = "true")) :
    drsLoop full (mkRec k v :: rest) i acc =
      if k = "msg" then drsLoop full rest (i + 1) (some (.vStr v))
      else drsLoop full rest (i + 1) acc := by
  by_cases hk : k = "error"
  · subst hk
    have hv : v ≠ "true" := fun hh => hne ⟨rfl, hh⟩
    simp [drsLoop, mkRec, mkRecV, pySub, assocLookup, isHashable, hv]
  · by_cases hm : k = "msg"
    · subst hm
      simp [drsLoop, mkRec, mkRecV, pySub, assocLookup, isHashable, keyValue]
    · simp [drsLoop, mkRec, mkRecV, pySub, assocLookup, isHashable, hk, hm]

theorem drsLoop_append_benign (full : PyVal) (pre rest : List PyVal)
    (i : Nat) (acc : Option PyVal) (h : ∀ r ∈ pre, Benign r) :
    ∃ acc2, drsLoop full (pre ++ rest) i acc =
      drsLoop full rest (i + pre.length) acc2 := by
  induction pre generalizing i acc with
  | nil => exact ⟨acc, by simp⟩
  | cons r pre ih =>
      obtain ⟨k, v, rfl, hne⟩ := h r (by simp)
      rw [List.cons_append, drsLoop_cons_rec full k v _ i acc hne]
      by_cases hm : k = "msg"
      · obtain ⟨acc2, heq⟩ := ih (i + 1) (some (.vStr v)) (fun q hq => h q (by simp [hq]))
        refine ⟨acc2, ?_⟩
        rw [if_pos hm, heq]
        congr 1
        simp
        omega
      · obtain ⟨acc2, heq⟩ := ih (i + 1) acc (fun q hq => h q (by simp [hq]))
        refine ⟨acc2, ?_⟩
        rw [if_neg hm, heq]
        congr 1
        simp
        omega

theorem drsLoop_keep (full : PyVal) (post : List PyVal) (i : Nat)
    (acc : Option PyVal) (h : ∀ r ∈ post, BenignNonMsg r) :
    drsLoop full post i acc = .ok acc := by
  induction post generalizing i with
  | nil => simp [drsLoop]
  | cons r post ih =>
      obtain ⟨k, v, rfl, hne, hm⟩ := h r (by simp)
      rw [drsLoop_cons_rec full k v _ i acc hne, if_neg hm]
      exact ih (i + 1) (fun q hq => h q (by simp [hq]))

theorem drsReduceDict_envelope (records : List PyVal) :
    drsReduceDict (mkEnvelope (.vList records)) =
      match drsLoop (.vList records) records 0 none with
      | .error e => .error e
      | .ok (some r) => .ok r
      | .ok none => .error .unboundLocal := rfl

end DrsResponse

/-! ## Claims C1, C3, C10 — the reduce loop -/

namespace DrsResponse

open PyVal

/-- C1, counterexample to the claim as stated: in a payload with error
flags at indices 0 and 2, the record at index 3 holds `"B"`, yet `reduce`
raises `DrsReturnError` with message `"A"` (the record after the *first*
flag), so the universally quantified claim over every flag index `i`
fails at `i = 2`. -/
theorem drs_error_flag_not_every_index :
    drsReduceDict (mkEnvelope (.vList
      [mkRec "error" "true", mkRec "m" "A", mkRec "error" "true", mkRec "m" "B"])) =
      .error (.drsReturnError (.vStr "A")) ∧
    PyErr.drsReturnError (.vStr "A") ≠ .drsReturnError (.vStr "B") := by
  exact ⟨by decide, by decide⟩

/-- C1 (amended): when the record at index `i` is the *first* record with
item key `"error"` and item value `"true"` (records before it are
well-shaped and do not trigger the flag), and a well-shaped record exists
at index `i + 1`, `reduce` raises `DrsReturnError` carrying exactly the
item value of the record at index `i + 1` — a positional lookup, not a
keyed one. -/
theorem drs_error_flag_positional (pre tail : List PyVal) (nk : String)
    (nv : PyVal) (hpre : ∀ r ∈ pre, Benign r) :
    drsReduceDict (mkEnvelope (.vList
      (pre ++ mkRec "error" "true" :: mkRecV nk nv :: tail))) =
      .error (.drsReturnError nv) := by
  rw [drsReduceDict_envelope]
  obtain ⟨acc2, heq⟩ := drsLoop_append_benign (.vList
      (pre ++ mkRec "error" "true" :: mkRecV nk nv :: tail))
      pre (mkRec "error" "true" :: mkRecV nk nv :: tail) 0 none hpre
  rw [heq]
  have hnext : (pre ++ mkRec "error" "true" :: mkRecV nk nv :: tail)[pre.length + 1]? =
      some (mkRecV nk nv) := by
    rw [List.getElem?_append_right (by omega)]
    simp
  have hfull : pySub (.vList (pre ++ mkRec "error" "true" :: mkRecV nk nv :: tail))
      (.vInt (pre.length + 1)) = .ok (mkRecV nk nv) := by
    simp [pySub, hnext]
  have hstep : drsLoop (.vList (pre ++ mkRec "error" "true" :: mkRecV nk nv :: tail))
      (mkRec "error" "true" :: mkRecV nk nv :: tail) (0 + pre.length) acc2 =
      (match pySub (.vList (pre ++ mkRec "error" "true" :: mkRecV nk nv :: tail))
          (.vInt (0 + pre.length + 1)) with
       | .error e => .error e
       | .ok nxt =>
         match pySub nxt (.vStr "item") with
         | .error e => .error e
         | .ok nitem =>
           match pySub nitem (.vStr "value") with
           | .error e => .error e
           | .ok nval => .error (.drsReturnError nval)) := rfl
  rw [hstep]
  rw [show 0 + pre.length + 1 = pre.length + 1 by omega, hfull]
  rfl

/-- C1 witness: a concrete instance of the amended theorem. -/
theorem drs_error_flag_positional_witness :
    drsReduceDict (mkEnvelope (.vList
      [mkRec "ok" "x", mkRec "error" "true", mkRec "msg" "boom"])) =
      .error (.drsReturnError (.vStr "boom")) := by
  have h := drs_error_flag_positional [mkRec "ok" "x"] [] "msg" (.vStr "boom")
    (by
      rintro r hr
      rw [List.mem_singleton] at hr
      subst hr
      exact ⟨"ok", "x", rfl, by simp⟩)
  simpa using h

/-- C3, counterexample to the claim as stated: a payload with no `"msg"`
record (and error flag `"false"`) makes `reduce` read the never-assigned
local `res_dict`, raising `UnboundLocalError` — it does not return an
empty map. -/
theorem drs_no_msg_unbound_counterexample :
    drsReduceDict (mkEnvelope (.vList [mkRec "error" "false"])) =
      .error .unboundLocal ∧
    Except.error PyErr.unboundLocal ≠
      (.ok (.vDict []) : Except PyErr PyVal) := by
  exact ⟨by decide, by decide⟩

/-- C3 (amended): when the payload contains no record with key `"msg"`
(and no error flag fires), `reduce` fails with `UnboundLocalError`
instead of returning an empty map; when a record with key `"msg"` is
present, `reduce` returns the key-value unwrapping of that (last such)
record's value. -/
theorem drs_no_msg_and_msg :
    (∀ records : List PyVal, (∀ r ∈ records, BenignNonMsg r) →
      drsReduceDict (mkEnvelope (.vList records)) = .error .unboundLocal) ∧
    (∀ (pre post : List PyVal) (v r : PyVal), (∀ x ∈ pre, BenignNonMsg x) →
      (∀ x ∈ post, BenignNonMsg x) → keyValue v = .ok r →
      drsReduceDict (mkEnvelope (.vList (pre ++ mkRecV "msg" v :: post))) = .ok r) := by
  constructor
  · intro records h
    rw [drsReduceDict_envelope, drsLoop_keep _ records 0 none h]
  · intro pre post v r hpre hpost hkv
    rw [drsReduceDict_envelope]
    have hpre' : ∀ x ∈ pre, Benign x := by
      intro x hx
      obtain ⟨k, w, rfl, hne, _⟩ := hpre x hx
      exact ⟨k, w, rfl, hne⟩
    obtain ⟨acc2, heq⟩ := drsLoop_append_benign
      (.vList (pre ++ mkRecV "msg" v :: post)) pre (mkRecV "msg" v :: post) 0 none hpre'
    rw [heq]
    have hstep : drsLoop (.vList (pre ++ mkRecV "msg" v :: post))
        (mkRecV "msg" v :: post) (0 + pre.length) acc2 =
        drsLoop (.vList (pre ++ mkRecV "msg" v :: post)) post (0 + pre.length + 1) (some r) := by
      simp [drsLoop, mkRecV, pySub, assocLookup, isHashable, hkv]
    rw [hstep, drsLoop_keep _ post _ _ hpost]

/-- C3 witness: no-`msg` payload raises, `msg` payload returns the
unwrapped value. -/
theorem drs_no_msg_and_msg_witness :
    drsReduceDict (mkEnvelope (.vList [mkRec "error" "false"])) =
      .error .unboundLocal ∧
    drsReduceDict (mkEnvelope (.vList
      [mkRec "error" "false", mkRecV "msg" (.vStr "y")])) = .ok (.vStr "y") := by
  constructor
  · exact drs_no_msg_and_msg.1 [mkRec "error" "false"]
      (by
        rintro r hr
        rw [List.mem_singleton] at hr
        subst hr
        exact ⟨"error", "false", rfl, by simp, by simp⟩)
  · exact drs_no_msg_and_msg.2 [mkRec "error" "false"] [] (.vStr "y") (.vStr "y")
      (by
        rintro r hr
        rw [List.mem_singleton] at hr
        subst hr
        exact ⟨"error", "false", rfl, by simp, by simp⟩)
      (by rintro r hr; cases hr)
      rfl

/-- C10 (confirmed): with several `"msg"` records in the payload, each
later one overwrites `res_dict`, so `reduce` returns the unwrapping of
the *last* `"msg"` record's value (records before it may include other
`"msg"` records; records after it contain none). -/
theorem drs_last_msg_wins (pre post : List PyVal) (v r : PyVal)
    (hpre : ∀ x ∈ pre, Benign x) (hpost : ∀ x ∈ post, BenignNonMsg x)
    (hkv : keyValue v = .ok r) :
    drsReduceDict (mkEnvelope (.vList (pre ++ mkRecV "msg" v :: post))) = .ok r := by
  rw [drsReduceDict_envelope]
  obtain ⟨acc2, heq⟩ := drsLoop_append_benign
    (.vList (pre ++ mkRecV "msg" v :: post)) pre (mkRecV "msg" v :: post) 0 none hpre
  rw [heq]
  have hstep : drsLoop (.vList (pre ++ mkRecV "msg" v :: post))
      (mkRecV "msg" v :: post) (0 + pre.length) acc2 =
      drsLoop (.vList (pre ++ mkRecV "msg" v :: post)) post (0 + pre.length + 1) (some r) := by
    simp [drsLoop, mkRecV, pySub, assocLookup, isHashable, hkv]
  rw [hstep, drsLoop_keep _ post _ _ hpost]

/-- C10 witness: two `"msg"` records; the second one's value `"second"`
is returned, the first one's `"first"` is discarded. -/
theorem drs_last_msg_wins_witness :
    drsReduceDict (mkEnvelope (.vList
      [mkRec "msg" "first", mkRecV "msg" (.vStr "second")])) = .ok (.vStr "second") := by
  have h := drs_last_msg_wins [mkRec "msg" "first"] [] (.vStr "second") (.vStr "second")
    (by
      rintro r hr
      rw [List.mem_singleton] at hr
      subst hr
      exact ⟨"msg", "first", rfl, by simp⟩)
    (by rintro r hr; cases hr)
    rfl
  simpa using h

end DrsResponse

/-! ## Lemmas about the display-name scan, claims C7 and C9 -/

namespace DrsResponse

open PyVal

theorem displayScan_nondisplay (l : List PyVal) (acc : Option PyVal)
    (h : ∀ r ∈ l, NonDisplay r) : displayScan l acc = .ok acc := by
  induction l generalizing acc with
  | nil => rfl
  | cons r t ih =>
      obtain ⟨k, v, rfl, h1, h2⟩ := h r (by simp)
      have : displayScan (mkRecV k v :: t) acc =
          (if (PyVal.vStr k) = .vStr "name" ∨ (PyVal.vStr k) = .vStr "language" then
            displayScan t (some v) else displayScan t acc) := rfl
      rw [this, if_neg (by simp [h1, h2])]
      exact ih acc (fun q hq => h q (by simp [hq]))

theorem displayScan_append_nondisplay (pre rest : List PyVal) (acc : Option PyVal)
    (h : ∀ r ∈ pre, NonDisplay r) :
    displayScan (pre ++ rest) acc = displayScan rest acc := by
  induction pre generalizing acc with
  | nil => rfl
  | cons r t ih =>
      obtain ⟨k, v, rfl, h1, h2⟩ := h r (by simp)
      have : displayScan ((mkRecV k v :: t) ++ rest) acc =
          (if (PyVal.vStr k) = .vStr "name" ∨ (PyVal.vStr k) = .vStr "language" then
            displayScan (t ++ rest) (some v) else displayScan (t ++ rest) acc) := rfl
      rw [this, if_neg (by simp [h1, h2])]
      exact ih acc (fun q hq => h q (by simp [hq]))

theorem displayScan_display_cons (dk : String) (dv : PyVal) (t : List PyVal)
    (acc : Option PyVal) (hdk : dk = "name" ∨ dk = "language") :
    displayScan (mkRecV dk dv :: t) acc = displayScan t (some dv) := by
  have : displayScan (mkRecV dk dv :: t) acc =
      (if (PyVal.vStr dk) = .vStr "name" ∨ (PyVal.vStr dk) = .vStr "language" then
        displayScan t (some dv) else displayScan t acc) := rfl
  rw [this, if_pos (by rcases hdk with rfl | rfl <;> simp)]

/-- C7 (confirmed): for a `"msg"` payload whose `"item"` value is a
sequence of well-shaped records whose first key is not the list-name
field `"listName"`, with exactly one record carrying a display-name key
(`"name"` or `"language"`), the key-value unwrapping returns the
one-entry map from the first record's value to that display record's
value. -/
theorem kv_generic_display (k0 dk : String) (v0 dv : PyVal) (mid post : List PyVal)
    (hk0 : k0 ≠ "listName") (h0n : k0 ≠ "name") (h0l : k0 ≠ "language")
    (hdk : dk = "name" ∨ dk = "language")
    (hmid : ∀ r ∈ mid, NonDisplay r) (hpost : ∀ r ∈ post, NonDisplay r)
    (hhash : isHashable v0 = true) :
    keyValue (.vDict [(.vStr "item",
        .vList (mkRecV k0 v0 :: (mid ++ mkRecV dk dv :: post)))]) =
      .ok (.vDict [(v0, dv)]) := by
  have hscan : displayScan (mkRecV k0 v0 :: (mid ++ mkRecV dk dv :: post)) none =
      .ok (some dv) := by
    rw [show (mkRecV k0 v0 :: (mid ++ mkRecV dk dv :: post)) =
        ((mkRecV k0 v0 :: mid) ++ (mkRecV dk dv :: post)) by simp]
    rw [displayScan_append_nondisplay _ _ _ (by
      rintro r hr
      rcases List.mem_cons.mp hr with rfl | hm
      · exact ⟨k0, v0, rfl, h0n, h0l⟩
      · exact hmid r hm)]
    rw [displayScan_display_cons dk dv post none hdk]
    exact displayScan_nondisplay post _ hpost
  have h2 : keyValue (.vDict [(.vStr "item",
      .vList (mkRecV k0 v0 :: (mid ++ mkRecV dk dv :: post)))]) =
      (if (PyVal.vStr k0) = .vStr "listName" then
        (match kvListName (mkRecV k0 v0 :: (mid ++ mkRecV dk dv :: post)) v0 [] with
         | .error e => .error e
         | .ok v =>
             if isHashable v0 then .ok (.vDict [(v0, .vDict v)])
             else .error .typeError)
       else
        (match displayScan (mkRecV k0 v0 :: (mid ++ mkRecV dk dv :: post)) none with
         | .error e => .error e
         | .ok none => .error .unboundLocal
         | .ok (some v) =>
             if isHashable v0 then .ok (.vDict [(v0, v)])
             else .error .typeError)) := rfl
  rw [h2, if_neg (by simp [hk0]), hscan]
  simp [hhash]

/-- C7 witness: the exact scenario from the claim —
`[{key:"languageId",value:"3"},{key:"language",value:"ENG"},{key:"id",value:"3"}]`
decodes to `{"3": "ENG"}`. -/
theorem kv_generic_display_witness :
    keyValue (.vDict [(.vStr "item", .vList
      [mkRec "languageId" "3", mkRec "language" "ENG", mkRec "id" "3"])]) =
      .ok (.vDict [(.vStr "3", .vStr "ENG")]) := by
  have h := kv_generic_display "languageId" "language" (.vStr "3") (.vStr "ENG")
    [] [mkRec "id" "3"]
    (by decide) (by decide) (by decide) (Or.inr rfl)
    (by rintro r hr; cases hr)
    (by
      rintro r hr
      rw [List.mem_singleton] at hr
      subst hr
      exact ⟨"id", .vStr "3", rfl, by decide, by decide⟩)
    rfl
  simpa using h

/-- C9 (confirmed): a composite `"item"` sequence of well-shaped records
whose first key is not `"listName"` and in which no record carries key
`"name"` or `"language"` makes the generic branch read the never-assigned
local `v`: the unwrapping fails with `UnboundLocalError`, which is none
of the three specified failure kinds. -/
theorem kv_generic_unbound (k0 : String) (v0 : PyVal) (rest : List PyVal)
    (hk0 : k0 ≠ "listName") (h0n : k0 ≠ "name") (h0l : k0 ≠ "language")
    (hrest : ∀ r ∈ rest, NonDisplay r) :
    keyValue (.vDict [(.vStr "item", .vList (mkRecV k0 v0 :: rest))]) =
      .error .unboundLocal := by
  have hscan : displayScan (mkRecV k0 v0 :: rest) none = .ok none :=
    displayScan_nondisplay _ _ (by
      rintro r hr
      rcases List.mem_cons.mp hr with rfl | hm
      · exact ⟨k0, v0, rfl, h0n, h0l⟩
      · exact hrest r hm)
  have h2 : keyValue (.vDict [(.vStr "item", .vList (mkRecV k0 v0 :: rest))]) =
      (if (PyVal.vStr k0) = .vStr "listName" then
        (match kvListName (mkRecV k0 v0 :: rest) v0 [] with
         | .error e => .error e
         | .ok v =>
             if isHashable v0 then .ok (.vDict [(v0, .vDict v)])
             else .error .typeError)
       else
        (match displayScan (mkRecV k0 v0 :: rest) none with
         | .error e => .error e
         | .ok none => .error .unboundLocal
         | .ok (some v) =>
             if isHashable v0 then .ok (.vDict [(v0, v)])
             else .error .typeError)) := rfl
  rw [h2, if_neg (by simp [hk0]), hscan]

/-- C9 witness: `[{key:"languageId",value:"3"},{key:"id",value:"3"}]`
(no display-name record) raises `UnboundLocalError`. -/
theorem kv_generic_unbound_witness :
    keyValue (.vDict [(.vStr "item", .vList
      [mkRec "languageId" "3", mkRec "id" "3"])]) = .error .unboundLocal := by
  have h := kv_generic_unbound "languageId" (.vStr "3") [mkRec "id" "3"]
    (by decide) (by decide) (by decide)
    (by
      rintro r hr
      rw [List.mem_singleton] at hr
      subst hr
      exact ⟨"id", .vStr "3", rfl, by decide, by decide⟩)
  simpa using h

end DrsResponse

/-! ## Lemmas about the list fold, claim C6 -/

namespace DrsResponse

open PyVal

theorem kvFold_cons_good (r : PyVal) (rest : List PyVal) (i : Nat)
    (acc pairs : List (PyVal × PyVal)) (hr : keyValue r = .ok (.vDict pairs)) :
    kvFold (r :: rest) i acc =
      kvFold rest (i + 1) (pairs.foldl (fun a p => assocSet a p.1 p.2) acc) := by
  have h0 : kvFold (r :: rest) i acc =
      (match (match keyValue r with
              | .ok q => pyUpdate acc q
              | .error e => .error e) with
       | .ok acc2 => kvFold rest (i + 1) acc2
       | .error e =>
           if e = .typeError ∨ e = .valueError then
             match pySub r (.vStr "item") with
             | .error e2 => .error e2
             | .ok raw => kvFold rest (i + 1) (assocSet acc (.vInt i) raw)
           else .error e) := rfl
  rw [h0, hr]
  rfl

theorem kvFold_cons_tolerated (r : PyVal) (rest : List PyVal) (i : Nat)
    (acc : List (PyVal × PyVal)) (raw : PyVal)
    (hr : keyValue r = .error .typeError ∨ keyValue r = .error .valueError)
    (hraw : pySub r (.vStr "item") = .ok raw) :
    kvFold (r :: rest) i acc = kvFold rest (i + 1) (assocSet acc (.vInt i) raw) := by
  have h0 : kvFold (r :: rest) i acc =
      (match (match keyValue r with
              | .ok q => pyUpdate acc q
              | .error e => .error e) with
       | .ok acc2 => kvFold rest (i + 1) acc2
       | .error e =>
           if e = .typeError ∨ e = .valueError then
             match pySub r (.vStr "item") with
             | .error e2 => .error e2
             | .ok raw => kvFold rest (i + 1) (assocSet acc (.vInt i) raw)
           else .error e) := rfl
  rcases hr with hr | hr
  · rw [h0, hr]
    simp [hraw]
  · rw [h0, hr]
    simp [hraw]

theorem kvFold_append_good (pre rest : List PyVal) (i : Nat)
    (acc : List (PyVal × PyVal)) (h : ∀ r ∈ pre, GoodElem r) :
    ∃ acc2, kvFold (pre ++ rest) i acc = kvFold rest (i + pre.length) acc2 := by
  induction pre generalizing i acc with
  | nil => exact ⟨acc, by simp⟩
  | cons r pre ih =>
      obtain ⟨pairs, hr, _⟩ := h r (by simp)
      rw [List.cons_append, kvFold_cons_good r _ i acc pairs hr]
      obtain ⟨acc2, heq⟩ := ih (i + 1)
        (pairs.foldl (fun a p => assocSet a p.1 p.2) acc)
        (fun q hq => h q (by simp [hq]))
      refine ⟨acc2, ?_⟩
      rw [heq]
      congr 1
      simp
      omega

theorem kvFold_good_run (post : List PyVal) (i : Nat)
    (acc : List (PyVal × PyVal)) (h : ∀ r ∈ post, GoodElem r) :
    ∃ d, kvFold post i acc = .ok d ∧
      ∀ n, assocLookup d (.vInt n) = assocLookup acc (.vInt n) := by
  induction post generalizing i acc with
  | nil => exact ⟨acc, rfl, fun _ => rfl⟩
  | cons r post ih =>
      obtain ⟨pairs, hr, hstr⟩ := h r (by simp)
      rw [kvFold_cons_good r _ i acc pairs hr]
      obtain ⟨d, hd, hpres⟩ := ih (i + 1)
        (pairs.foldl (fun a p => assocSet a p.1 p.2) acc)
        (fun q hq => h q (by simp [hq]))
      refine ⟨d, hd, fun n => ?_⟩
      rw [hpres n, foldl_assocSet_int_lookup pairs acc n hstr]

/-- C6, counterexample to the claim as stated: the second element is a
mapping without an `"item"` entry — a shape-validation failure — but the
resulting `KeyError` is not among the caught exception classes
(`TypeError`, `ValueError`), so the whole fold aborts instead of mapping
index 1 to the raw child: one malformed element *does* prevent decoding
the rest. -/
theorem kv_fold_keyerror_propagates :
    keyValue (.vList [mkRec "k" "v", .vDict [(.vStr "a", .vStr "b")]]) =
      .error (.keyError (.vStr "item")) := by decide

/-- C6 (amended): the fold tolerates a per-element failure only when it
is raised as `TypeError` or `ValueError` and the element is a mapping
with an `"item"` entry; in that case the result maps the element's index
to its raw `"item"` child and the remaining elements are still decoded.
Failures of any other class (`KeyError` etc.), or a failing fallback
access, propagate and abort the whole fold. -/
theorem kv_fold_tolerant (pre post : List PyVal) (bad raw : PyVal)
    (hpre : ∀ r ∈ pre, GoodElem r) (hpost : ∀ r ∈ post, GoodElem r)
    (hbad : keyValue bad = .error .typeError ∨ keyValue bad = .error .valueError)
    (hraw : pySub bad (.vStr "item") = .ok raw) :
    isOkDict (keyValue (.vList (pre ++ bad :: post))) = true ∧
    lookupResult (keyValue (.vList (pre ++ bad :: post))) (.vInt pre.length) =
      some raw := by
  have hkv : keyValue (.vList (pre ++ bad :: post)) =
      (match kvFold (pre ++ bad :: post) 0 [] with
       | .error e => .error e
       | .ok d => .ok (.vDict d)) := rfl
  obtain ⟨acc2, heq⟩ := kvFold_append_good pre (bad :: post) 0 [] hpre
  have hbadstep := kvFold_cons_tolerated bad post (0 + pre.length) acc2 raw hbad hraw
  obtain ⟨d, hd, hpres⟩ := kvFold_good_run post (0 + pre.length + 1)
    (assocSet acc2 (.vInt (0 + pre.length)) raw) hpost
  have hrun : kvFold (pre ++ bad :: post) 0 [] = .ok d := by
    rw [heq, hbadstep, hd]
  have hlook : assocLookup d (.vInt pre.length) = some raw := by
    rw [show (PyVal.vInt pre.length) = .vInt (0 + pre.length) by simp, hpres,
      assocLookup_assocSet_self]
  constructor
  · rw [show isOkDict (keyValue (.vList (pre ++ bad :: post))) =
        isOkDict (match kvFold (pre ++ bad :: post) 0 [] with
          | .error e => .error e
          | .ok d => .ok (.vDict d)) from by rw [hkv], hrun]
    rfl
  · rw [show lookupResult (keyValue (.vList (pre ++ bad :: post))) (.vInt pre.length) =
        lookupResult (match kvFold (pre ++ bad :: post) 0 [] with
          | .error e => .error e
          | .ok d => .ok (.vDict d)) (.vInt pre.length) from by rw [hkv], hrun]
    exact hlook

/-- C6 witness: a 3-element list whose middle element fails with a
tolerated `TypeError`; the result is a dict mapping index 1 to the raw
`"item"` child while elements 0 and 2 still decode. -/
theorem kv_fold_tolerant_witness :
    isOkDict (keyValue (.vList [mkRec "k" "v",
      .vDict [(.vStr "item", .vList [.vStr "oops"])], mkRec "k2" "v2"])) = true ∧
    lookupResult (keyValue (.vList [mkRec "k" "v",
      .vDict [(.vStr "item", .vList [.vStr "oops"])], mkRec "k2" "v2"]))
      (.vInt 1) = some (.vList [.vStr "oops"]) := by
  have h := kv_fold_tolerant [mkRec "k" "v"] [mkRec "k2" "v2"]
    (.vDict [(.vStr "item", .vList [.vStr "oops"])]) (.vList [.vStr "oops"])
    (by
      rintro r hr
      rw [List.mem_singleton] at hr
      subst hr
      exact ⟨[(.vStr "k", .vStr "v")], by decide,
        by rintro p hp; rw [List.mem_singleton] at hp; subst hp; exact ⟨"k", rfl⟩⟩)
    (by
      rintro r hr
      rw [List.mem_singleton] at hr
      subst hr
      exact ⟨[(.vStr "k2", .vStr "v2")], by decide,
        by rintro p hp; rw [List.mem_singleton] at hp; subst hp; exact ⟨"k2", rfl⟩⟩)
    (Or.inl (by decide))
    (by decide)
  simpa using h

end DrsResponse

/-! ## Claims C4 and C5 — the one-item arm and the failure taxonomy -/

namespace DrsResponse

open PyVal

theorem kvFindItem_lookup (entries : List (PyVal × PyVal)) (it : PyVal)
    (h : assocLookup entries (.vStr "item") = some it) :
    kvFindItem entries = kvItem it := by
  induction entries with
  | nil => simp [assocLookup] at h
  | cons p t ih =>
      obtain ⟨a, b⟩ := p
      by_cases ha : a = .vStr "item"
      · subst ha
        rw [show assocLookup ((PyVal.vStr "item", b) :: t) (.vStr "item") = some b from by
          simp [assocLookup]] at h
        cases h
        simp [kvFindItem]
      · rw [show assocLookup ((a, b) :: t) (.vStr "item") = assocLookup t (.vStr "item") from by
          simp [assocLookup, ha]] at h
        rw [show kvFindItem ((a, b) :: t) = kvFindItem t from by simp [kvFindItem, ha]]
        exact ih h

/-- C4, counterexample to the claim as stated: the `"item"` mapping's
`"value"` is itself a structured record, yet `_key_value` stores it raw —
the result is `{"k": {"item": {...}}}`, not the recursively unwrapped
`{"k": {"a": "b"}}` the claim requires (and the recursive unwrap of that
value would indeed differ, as the second and third conjuncts show). -/
theorem kv_one_item_no_recursion :
    keyValue (.vDict [(.vStr "item", .vDict
      [(.vStr "key", .vStr "k"), (.vStr "value", mkRec "a" "b")])]) =
      .ok (.vDict [(.vStr "k", mkRec "a" "b")]) ∧
    keyValue (mkRec "a" "b") = .ok (.vDict [(.vStr "a", .vStr "b")]) ∧
    (PyVal.vDict [(.vStr "k", mkRec "a" "b")]) ≠
      .vDict [(.vStr "k", .vDict [(.vStr "a", .vStr "b")])] := by
  exact ⟨by decide, by decide, by decide⟩

/-- C4 (amended): for a node that is a mapping whose `"item"` entry is a
mapping with `"key"`/`"value"` children, the unwrapping returns the
one-entry map from the key to the *raw* value — structured values are
stored as-is, with no recursive unwrapping (an unhashable key would
raise `TypeError` first). -/
theorem kv_one_item_raw (entries ientries : List (PyVal × PyVal)) (k v : PyVal)
    (hitem : assocLookup entries (.vStr "item") = some (.vDict ientries))
    (hk : assocLookup ientries (.vStr "key") = some k)
    (hv : assocLookup ientries (.vStr "value") = some v)
    (hh : isHashable k = true) :
    keyValue (.vDict entries) = .ok (.vDict [(k, v)]) := by
  rw [show keyValue (.vDict entries) = kvFindItem entries from rfl,
    kvFindItem_lookup entries _ hitem]
  have h0 : kvItem (.vDict ientries) =
      (match assocLookup ientries (.vStr "key") with
       | none => .error (.keyError (.vStr "key"))
       | some key =>
         match assocLookup ientries (.vStr "value") with
         | none => .error (.keyError (.vStr "value"))
         | some value =>
             if isHashable key then .ok (.vDict [(key, value)])
             else .error .typeError) := rfl
  rw [h0, hk, hv]
  simp [hh]

/-- C4 witness: a concrete structured value stored raw. -/
theorem kv_one_item_raw_witness :
    keyValue (.vDict [(.vStr "item", .vDict
      [(.vStr "key", .vStr "k"), (.vStr "value", .vList [.vStr "z"])])]) =
      .ok (.vDict [(.vStr "k", .vList [.vStr "z"])]) := by
  exact kv_one_item_raw [(.vStr "item", .vDict
      [(.vStr "key", .vStr "k"), (.vStr "value", .vList [.vStr "z"])])]
    [(.vStr "key", .vStr "k"), (.vStr "value", .vList [.vStr "z"])]
    (.vStr "k") (.vList [.vStr "z"]) (by decide) (by decide) (by decide) rfl

/-- C5, counterexample to the claim as stated: a well-formed tree that
lacks the expected envelope path fails with `KeyError`, not with
`DrsParserError` (the model of `ResponseParseError`). -/
theorem drs_missing_path_keyerror :
    drsReduceDict (.vDict []) = .error (.keyError (.vStr "Envelope")) ∧
    PyErr.keyError (.vStr "Envelope") ≠ .drsParserError := by
  exact ⟨by decide, by decide⟩

end DrsResponse

/-! ## Claim C2 — the XML tree parser -/

namespace Xml2Dict

theorem parseList_map_fst (l : List XmlElem) :
    (parseList l).map Prod.fst = l.map (fun c => PyVal.vStr c.tag) := by
  induction l with
  | nil => rfl
  | cons c cs ih => simp [parseList, ih]

theorem parseList_length (l : List XmlElem) :
    (parseList l).length = l.length := by
  induction l with
  | nil => rfl
  | cons c cs ih => simp [parseList, ih]

/-- C2 (confirmed): for an element with children, when the child tags are
all distinct `parse` yields a mapping whose ordered key list is exactly
the child tag list (same key set, document order preserved); when the
child tags contain a duplicate, `parse` yields a sequence of single-entry
mappings whose length equals the number of children, again tag-ordered. -/
theorem parse_shape (e : XmlElem) (hne : e.children ≠ []) :
    (((e.children.map XmlElem.tag).Nodup →
        parse e = .vDict (parseList e.children) ∧
        (parseList e.children).map Prod.fst =
          e.children.map (fun c => PyVal.vStr c.tag)) ∧
     (¬ (e.children.map XmlElem.tag).Nodup →
        parse e = .vList ((parseList e.children).map fun p => PyVal.vDict [p]) ∧
        ((parseList e.children).map fun p => PyVal.vDict [p]).length =
          e.children.length ∧
        (parseList e.children).map Prod.fst =
          e.children.map (fun c => PyVal.vStr c.tag))) := by
  obtain ⟨t, text, children⟩ := e
  cases children with
  | nil => exact absurd rfl hne
  | cons c cs =>
      constructor
      · intro h
        refine ⟨?_, parseList_map_fst _⟩
        simp only [XmlElem.children] at h ⊢
        rw [show parse (.mk t text (c :: cs)) =
          (if ((c :: cs).map XmlElem.tag).Nodup then PyVal.vDict (parseList (c :: cs))
           else .vList ((parseList (c :: cs)).map fun p => PyVal.vDict [p])) from rfl]
        rw [if_pos h]
      · intro h
        refine ⟨?_, ?_, parseList_map_fst _⟩
        · simp only [XmlElem.children] at h ⊢
          rw [show parse (.mk t text (c :: cs)) =
            (if ((c :: cs).map XmlElem.tag).Nodup then PyVal.vDict (parseList (c :: cs))
             else .vList ((parseList (c :: cs)).map fun p => PyVal.vDict [p])) from rfl]
          rw [if_neg h]
        · simp [XmlElem.children, parseList_length]

/-- C2 witness: a two-child element with distinct tags parses to an
ordered mapping keyed `a`, `b`; a three-child element with a duplicated
tag parses to a three-entry sequence of single-entry mappings. -/
theorem parse_shape_witness :
    parse (.mk "r" none [.mk "a" (some "1") [], .mk "b" none []]) =
      .vDict [(.vStr "a", .vStr "1"), (.vStr "b", .vStr "")] ∧
    (parseList [XmlElem.mk "a" (some "1") [], .mk "b" none []]).map Prod.fst =
      [PyVal.vStr "a", .vStr "b"] ∧
    parse (.mk "r" none [.mk "a" (some "1") [], .mk "a" (some "2") [], .mk "b" none []]) =
      .vList [.vDict [(.vStr "a", .vStr "1")], .vDict [(.vStr "a", .vStr "2")],
        .vDict [(.vStr "b", .vStr "")]] ∧
    ((parseList [XmlElem.mk "a" (some "1") [], .mk "a" (some "2") [],
        .mk "b" none []]).map fun p => PyVal.vDict [p]).length = 3 := by
  have h1 := (parse_shape (.mk "r" none [.mk "a" (some "1") [], .mk "b" none []])
    (fun h => List.noConfusion h)).1 (by decide)
  have h2 := (parse_shape (.mk "r" none
    [.mk "a" (some "1") [], .mk "a" (some "2") [], .mk "b" none []])
    (fun h => List.noConfusion h)).2 (by decide)
  refine ⟨?_, ?_, ?_, ?_⟩
  · rw [h1.1]; decide
  · have := h1.2; simpa using this
  · rw [h2.1]; decide
  · have := h2.2.1; simpa using this

end Xml2Dict

/-! ## Claim C8 — namespace normalization -/

namespace DrsResponse

open PyVal

/-- C8, counterexample to the claim as stated: with two keys both
carrying the envelope namespace string, only the *first* key is stripped
(and moved to the end of the mapping); the second key keeps its
namespace, so the prefix is not removed from every key in which it
appears. -/
theorem remove_env_not_every_key :
    removeEnvMut (.vDict [(.vStr (envString ++ "A"), .vStr "x"),
        (.vStr (envString ++ "B"), .vStr "y")]) =
      .vDict [(.vStr (envString ++ "B"), .vStr "y"), (.vStr "A", .vStr "x")] ∧
    assocLookup [((PyVal.vStr (envString ++ "B")), PyVal.vStr "y"),
        (.vStr "A", .vStr "x")] (.vStr "B") = none ∧
    assocLookup [((PyVal.vStr (envString ++ "B")), PyVal.vStr "y"),
        (.vStr "A", .vStr "x")] (.vStr (envString ++ "B")) = some (.vStr "y") := by
  exact ⟨by decide, by decide, by decide⟩

/-- C8 (amended): normalization processes only the *first* entry of each
mapping: it recursively rewrites that entry's value when the value is a
mapping, then — when the envelope namespace string occurs in the first
key — strips all of its occurrences from that key and moves the renamed
entry to the end of the mapping; every other key is left untouched.  On
an empty mapping the function falls through the loop and returns `None`. -/
theorem remove_env_first_entry_only (x y z : PyVal)
    (hx : ∀ l, x ≠ .vDict l) (hz : ∀ l, z ≠ .vDict l) :
    (removeEnvMut (.vDict [(.vStr (envString ++ "A"), x),
        (.vStr (envString ++ "B"), y)]) =
      .vDict [(.vStr (envString ++ "B"), y), (.vStr "A", x)]) ∧
    (removeEnvMut (.vDict [(.vStr (envString ++ "A"), .vDict
        [(.vStr (envString ++ "C"), z), (.vStr (envString ++ "D"), y)])]) =
      .vDict [(.vStr "A", .vDict [(.vStr (envString ++ "D"), y), (.vStr "C", z)])]) ∧
    removeEnvStr (.vDict []) = .vNone := by
  have hxid : removeEnvChild x = x := by
    cases x with
    | vDict l => exact absurd rfl (hx l)
    | vStr s => rfl
    | vInt n => rfl
    | vList l => rfl
    | vNone => rfl
  have hzid : removeEnvChild z = z := by
    cases z with
    | vDict l => exact absurd rfl (hz l)
    | vStr s => rfl
    | vInt n => rfl
    | vList l => rfl
    | vNone => rfl
  have hContA : envContains (envString ++ "A") = true := by decide
  have hContC : envContains (envString ++ "C") = true := by decide
  have hStripA : envStrip (envString ++ "A") = "A" := by decide
  have hStripC : envStrip (envString ++ "C") = "C" := by decide
  have hBA : (PyVal.vStr (envString ++ "B")) ≠ .vStr "A" := by decide
  have hDC : (PyVal.vStr (envString ++ "D")) ≠ .vStr "C" := by decide
  refine ⟨?_, ?_, rfl⟩
  · rw [show removeEnvMut (.vDict [(.vStr (envString ++ "A"), x),
        (.vStr (envString ++ "B"), y)]) =
        (if envContains (envString ++ "A") then
          .vDict (assocSet [(.vStr (envString ++ "B"), y)]
            (.vStr (envStrip (envString ++ "A"))) (removeEnvChild x))
         else .vDict ((.vStr (envString ++ "A"), removeEnvChild x) ::
            [(.vStr (envString ++ "B"), y)])) from rfl]
    rw [if_pos hContA, hxid, hStripA]
    rw [show assocSet [(.vStr (envString ++ "B"), y)] (.vStr "A") x =
        (if (PyVal.vStr (envString ++ "B")) = .vStr "A" then
          [(.vStr (envString ++ "B"), x)]
         else (.vStr (envString ++ "B"), y) :: assocSet [] (.vStr "A") x) from rfl]
    rw [if_neg hBA]
    rfl
  · have hinner : removeEnvChild (.vDict
        [(.vStr (envString ++ "C"), z), (.vStr (envString ++ "D"), y)]) =
        .vDict [(.vStr (envString ++ "D"), y), (.vStr "C", z)] := by
      rw [show removeEnvChild (.vDict
          [(.vStr (envString ++ "C"), z), (.vStr (envString ++ "D"), y)]) =
          (if envContains (envString ++ "C") then
            .vDict (assocSet [(.vStr (envString ++ "D"), y)]
              (.vStr (envStrip (envString ++ "C"))) (removeEnvChild z))
           else .vDict ((.vStr (envString ++ "C"), removeEnvChild z) ::
              [(.vStr (envString ++ "D"), y)])) from rfl]
      rw [if_pos hContC, hzid, hStripC]
      rw [show assocSet [(.vStr (envString ++ "D"), y)] (.vStr "C") z =
          (if (PyVal.vStr (envString ++ "D")) = .vStr "C" then
            [(.vStr (envString ++ "D"), z)]
           else (.vStr (envString ++ "D"), y) :: assocSet [] (.vStr "C") z) from rfl]
      rw [if_neg hDC]
      rfl
    rw [show removeEnvMut (.vDict [(.vStr (envString ++ "A"), .vDict
        [(.vStr (envString ++ "C"), z), (.vStr (envString ++ "D"), y)])]) =
        (if envContains (envString ++ "A") then
          .vDict (assocSet [] (.vStr (envStrip (envString ++ "A")))
            (removeEnvChild (.vDict [(.vStr (envString ++ "C"), z),
              (.vStr (envString ++ "D"), y)])))
         else .vDict [(.vStr (envString ++ "A"), removeEnvChild (.vDict
            [(.vStr (envString ++ "C"), z), (.vStr (envString ++ "D"), y)]))]) from rfl]
    rw [if_pos hContA, hinner, hStripA]
    rfl

/-- C8 witness: concrete values for the amended theorem. -/
theorem remove_env_first_entry_only_witness :
    (removeEnvMut (.vDict [(.vStr (envString ++ "A"), .vStr "x"),
        (.vStr (envString ++ "B"), .vStr "y")]) =
      .vDict [(.vStr (envString ++ "B"), .vStr "y"), (.vStr "A", .vStr "x")]) ∧
    (removeEnvMut (.vDict [(.vStr (envString ++ "A"), .vDict
        [(.vStr (envString ++ "C"), .vNone), (.vStr (envString ++ "D"), .vStr "y")])]) =
      .vDict [(.vStr "A", .vDict [(.vStr (envString ++ "D"), .vStr "y"),
        (.vStr "C", .vNone)])]) ∧
    removeEnvStr (.vDict []) = .vNone := by
  exact remove_env_first_entry_only (.vStr "x") (.vStr "y") .vNone
    (fun l h => PyVal.noConfusion h) (fun l h => PyVal.noConfusion h)

end DrsResponse

/-! ## Builtin-error classification of the primitive operations -/

namespace DrsResponse

open PyVal

theorem pySub_error_builtin (x k : PyVal) (e : PyErr)
    (h : pySub x k = .error e) : isBuiltinErr e = true := by
  cases x with
  | vDict entries =>
      by_cases hk : isHashable k
      · rw [show pySub (.vDict entries) k =
            (if isHashable k then
              match assocLookup entries k with
              | some v => .ok v
              | none => .error (.keyError k)
             else .error .typeError) from rfl, if_pos hk] at h
        cases hl : assocLookup entries k with
        | some v => rw [hl] at h; exact absurd h (by simp)
        | none => rw [hl] at h; cases h; rfl
      · rw [show pySub (.vDict entries) k =
            (if isHashable k then
              match assocLookup entries k with
              | some v => .ok v
              | none => .error (.keyError k)
             else .error .typeError) from rfl, if_neg hk] at h
        cases h; rfl
  | vList items =>
      cases k with
      | vInt i =>
          rw [show pySub (.vList items) (.vInt i) =
              (match items[i]? with
               | some v => .ok v
               | none => .error .indexError) from rfl] at h
          cases hl : items[i]? with
          | some v => rw [hl] at h; exact absurd h (by simp)
          | none => rw [hl] at h; cases h; rfl
      | vStr s => cases h; rfl
      | vDict l => cases h; rfl
      | vList l => cases h; rfl
      | vNone => cases h; rfl
  | vStr s =>
      cases k with
      | vInt i =>
          rw [show pySub (.vStr s) (.vInt i) =
              (match s.data[i]? with
               | some c => .ok (.vStr (String.mk [c]))
               | none => .error .indexError) from rfl] at h
          cases hl : s.data[i]? with
          | some c => rw [hl] at h; exact absurd h (by simp)
          | none => rw [hl] at h; cases h; rfl
      | vStr t => cases h; rfl
      | vDict l => cases h; rfl
      | vList l => cases h; rfl
      | vNone => cases h; rfl
  | vInt n => cases h; rfl
  | vNone => cases h; rfl

theorem pairOfElem_error_builtin (x : PyVal) (e : PyErr)
    (h : pairOfElem x = .error e) : isBuiltinErr e = true := by
  cases x with
  | vList items =>
      match items with
      | [] => cases h; rfl
      | [a] => cases h; rfl
      | [a, b] => exact absurd h (by simp [pairOfElem])
      | a :: b :: c :: t => cases h; rfl
  | vStr s =>
      rw [show pairOfElem (.vStr s) =
          (match s.data with
           | [a, b] => .ok (.vStr (String.mk [a]), .vStr (String.mk [b]))
           | _ => .error .valueError) from rfl] at h
      match hd : s.data with
      | [] => rw [hd] at h; cases h; rfl
      | [a] => rw [hd] at h; cases h; rfl
      | [a, b] => rw [hd] at h; exact absurd h (by simp)
      | a :: b :: c :: t => rw [hd] at h; cases h; rfl
  | vDict l =>
      match l with
      | [] => cases h; rfl
      | [p] => cases h; rfl
      | [p, q] => exact absurd h (by simp [pairOfElem])
      | p :: q :: r :: t => cases h; rfl
  | vInt n => cases h; rfl
  | vNone => cases h; rfl

theorem pyUpdateSeq_error_builtin (items : List PyVal)
    (acc : List (PyVal × PyVal)) (e : PyErr)
    (h : pyUpdateSeq acc items = .error e) : isBuiltinErr e = true := by
  induction items generalizing acc with
  | nil => exact absurd h (by simp [pyUpdateSeq])
  | cons x t ih =>
      rw [show pyUpdateSeq acc (x :: t) =
          (match pairOfElem x with
           | .error err => .error err
           | .ok (k, v) =>
               if isHashable k then pyUpdateSeq (assocSet acc k v) t
               else .error .typeError) from rfl] at h
      cases hp : pairOfElem x with
      | error err =>
          rw [hp] at h
          cases h
          exact pairOfElem_error_builtin x e hp
      | ok kv =>
          obtain ⟨k, v⟩ := kv
          rw [hp] at h
          replace h : (if isHashable k then pyUpdateSeq (assocSet acc k v) t
              else Except.error PyErr.typeError) = .error e := h
          by_cases hk : isHashable k
          · rw [if_pos hk] at h
            exact ih (assocSet acc k v) h
          · rw [if_neg hk] at h
            cases h
            rfl

theorem pyUpdate_error_builtin (acc : List (PyVal × PyVal)) (x : PyVal)
    (e : PyErr) (h : pyUpdate acc x = .error e) : isBuiltinErr e = true := by
  cases x with
  | vDict pairs => exact absurd h (by simp [pyUpdate])
  | vStr s =>
      rw [show pyUpdate acc (.vStr s) =
          (if s.data = [] then .ok acc else .error .valueError) from rfl] at h
      by_cases hs : s.data = []
      · rw [if_pos hs] at h; exact absurd h (by simp)
      · rw [if_neg hs] at h; cases h; rfl
  | vList items => exact pyUpdateSeq_error_builtin items acc e h
  | vInt n => cases h; rfl
  | vNone => cases h; rfl

theorem displayScan_error_builtin (l : List PyVal) (acc : Option PyVal)
    (e : PyErr) (h : displayScan l acc = .error e) : isBuiltinErr e = true := by
  induction l generalizing acc with
  | nil => exact absurd h (by simp [displayScan])
  | cons kv t ih =>
      rw [show displayScan (kv :: t) acc =
          (match pySub kv (.vStr "item") with
           | .error e => .error e
           | .ok it =>
             match pySub it (.vStr "key") with
             | .error e => .error e
             | .ok key =>
               if key = .vStr "name" ∨ key = .vStr "language" then
                 match pySub it (.vStr "value") with
                 | .error e => .error e
                 | .ok value => displayScan t (some value)
               else displayScan t acc) from rfl] at h
      cases h1 : pySub kv (.vStr "item") with
      | error e1 => rw [h1] at h; cases h; exact pySub_error_builtin kv _ _ h1
      | ok it =>
          rw [h1] at h
          replace h : (match pySub it (PyVal.vStr "key") with
              | Except.error e => (Except.error e : Except PyErr (Option PyVal))
              | Except.ok key =>
                if key = PyVal.vStr "name" ∨ key = PyVal.vStr "language" then
                  match pySub it (PyVal.vStr "value") with
                  | Except.error e => Except.error e
                  | Except.ok value => displayScan t (some value)
                else displayScan t acc) = Except.error e := h
          cases h2 : pySub it (.vStr "key") with
          | error e2 => rw [h2] at h; cases h; exact pySub_error_builtin it _ _ h2
          | ok key =>
              rw [h2] at h
              replace h : (if key = PyVal.vStr "name" ∨ key = PyVal.vStr "language" then
                  match pySub it (PyVal.vStr "value") with
                  | Except.error e => (Except.error e : Except PyErr (Option PyVal))
                  | Except.ok value => displayScan t (some value)
                else displayScan t acc) = Except.error e := h
              by_cases hkey : key = .vStr "name" ∨ key = .vStr "language"
              · rw [if_pos hkey] at h
                cases h3 : pySub it (.vStr "value") with
                | error e3 => rw [h3] at h; cases h; exact pySub_error_builtin it _ _ h3
                | ok value => rw [h3] at h; exact ih (some value) h
              · rw [if_neg hkey] at h
                exact ih acc h

/-- The tail of `_drs_reduce_dict` after the envelope descent: the
iteration and scan of the payload. -/
theorem drsReduceDict_of_descend_error (d : PyVal) (e : PyErr)
    (h : envDescend d = .error e) : drsReduceDict d = .error e := by
  have hfull : drsReduceDict d =
      (match pySub d (.vStr "Envelope") with
       | .error e => .error e
       | .ok env =>
         match pySub env (.vStr "Body") with
         | .error e => .error e
         | .ok body =>
           match pySub body (.vStr "\x7bns1\x7dwebserviceResponse") with
           | .error e => .error e
           | .ok resp =>
             match pySub resp (.vStr "webserviceReturn") with
             | .error e => .error e
             | .ok ret =>
               match pyIter ret with
               | .error e => .error e
               | .ok items =>
                 match drsLoop ret items 0 none with
                 | .error e => .error e
                 | .ok (some r) => .ok r
                 | .ok none => .error .unboundLocal) := rfl
  unfold envDescend at h
  cases h1 : pySub d (.vStr "Envelope") with
  | error e1 =>
      rw [h1] at h
      replace h : (Except.error e1 : Except PyErr PyVal) = .error e := h
      cases h
      rw [hfull, h1]
  | ok env =>
      rw [h1] at h
      replace h : (match pySub env (PyVal.vStr "Body") with
          | Except.error e => (Except.error e : Except PyErr PyVal)
          | Except.ok body =>
            match pySub body (PyVal.vStr "\x7bns1\x7dwebserviceResponse") with
            | Except.error e => Except.error e
            | Except.ok resp => pySub resp (PyVal.vStr "webserviceReturn")) =
          Except.error e := h
      have hfull2 : drsReduceDict d =
          (match pySub env (.vStr "Body") with
           | .error e => .error e
           | .ok body =>
             match pySub body (.vStr "\x7bns1\x7dwebserviceResponse") with
             | .error e => .error e
             | .ok resp =>
               match pySub resp (.vStr "webserviceReturn") with
               | .error e => .error e
               | .ok ret =>
                 match pyIter ret with
                 | .error e => .error e
                 | .ok items =>
                   match drsLoop ret items 0 none with
                   | .error e => .error e
                   | .ok (some r) => .ok r
                   | .ok none => .error .unboundLocal) := by
        rw [hfull, h1]
      cases h2 : pySub env (.vStr "Body") with
      | error e2 =>
          rw [h2] at h
          replace h : (Except.error e2 : Except PyErr PyVal) = .error e := h
          cases h
          rw [hfull2, h2]
      | ok body =>
          rw [h2] at h
          replace h : (match pySub body (PyVal.vStr "\x7bns1\x7dwebserviceResponse") with
              | Except.error e => (Except.error e : Except PyErr PyVal)
              | Except.ok resp => pySub resp (PyVal.vStr "webserviceReturn")) =
              Except.error e := h
          have hfull3 : drsReduceDict d =
              (match pySub body (.vStr "\x7bns1\x7dwebserviceResponse") with
               | .error e => .error e
               | .ok resp =>
                 match pySub resp (.vStr "webserviceReturn") with
                 | .error e => .error e
                 | .ok ret =>
                   match pyIter ret with
                   | .error e => .error e
                   | .ok items =>
                     match drsLoop ret items 0 none with
                     | .error e => .error e
                     | .ok (some r) => .ok r
                     | .ok none => .error .unboundLocal) := by
            rw [hfull2, h2]
          cases h3 : pySub body (.vStr "\x7bns1\x7dwebserviceResponse") with
          | error e3 =>
              rw [h3] at h
              replace h : (Except.error e3 : Except PyErr PyVal) = .error e := h
              cases h
              rw [hfull3, h3]
          | ok resp =>
              rw [h3] at h
              replace h : pySub resp (.vStr "webserviceReturn") = .error e := h
              have hfull4 : drsReduceDict d =
                  (match pySub resp (.vStr "webserviceReturn") with
                   | .error e => .error e
                   | .ok ret =>
                     match pyIter ret with
                     | .error e => .error e
                     | .ok items =>
                       match drsLoop ret items 0 none with
                       | .error e => .error e
                       | .ok (some r) => .ok r
                       | .ok none => .error .unboundLocal) := by
                rw [hfull3, h3]
              rw [hfull4, h]

theorem envDescend_error_builtin (d : PyVal) (e : PyErr)
    (h : envDescend d = .error e) : isBuiltinErr e = true := by
  unfold envDescend at h
  cases h1 : pySub d (.vStr "Envelope") with
  | error e1 =>
      rw [h1] at h
      replace h : (Except.error e1 : Except PyErr PyVal) = .error e := h
      cases h
      exact pySub_error_builtin d _ _ h1
  | ok env =>
      rw [h1] at h
      replace h : (match pySub env (PyVal.vStr "Body") with
          | Except.error e => (Except.error e : Except PyErr PyVal)
          | Except.ok body =>
            match pySub body (PyVal.vStr "\x7bns1\x7dwebserviceResponse") with
            | Except.error e => Except.error e
            | Except.ok resp => pySub resp (PyVal.vStr "webserviceReturn")) =
          Except.error e := h
      cases h2 : pySub env (.vStr "Body") with
      | error e2 =>
          rw [h2] at h
          replace h : (Except.error e2 : Except PyErr PyVal) = .error e := h
          cases h
          exact pySub_error_builtin env _ _ h2
      | ok body =>
          rw [h2] at h
          replace h : (match pySub body (PyVal.vStr "\x7bns1\x7dwebserviceResponse") with
              | Except.error e => (Except.error e : Except PyErr PyVal)
              | Except.ok resp => pySub resp (PyVal.vStr "webserviceReturn")) =
              Except.error e := h
          cases h3 : pySub body (.vStr "\x7bns1\x7dwebserviceResponse") with
          | error e3 =>
              rw [h3] at h
              replace h : (Except.error e3 : Except PyErr PyVal) = .error e := h
              cases h
              exact pySub_error_builtin body _ _ h3
          | ok resp =>
              rw [h3] at h
              replace h : pySub resp (.vStr "webserviceReturn") = .error e := h
              exact pySub_error_builtin resp _ _ h

end DrsResponse

/-! ## No library-defined failure arises on int/None-free payloads -/

namespace DrsResponse

open PyVal

theorem entriesFree_cons {k v : PyVal} {t : List (PyVal × PyVal)}
    (h : entriesFree ((k, v) :: t) = true) :
    intNoneFree k = true ∧ intNoneFree v = true ∧ entriesFree t = true := by
  simp [entriesFree, Bool.and_eq_true] at h
  tauto

theorem itemsFree_cons {x : PyVal} {t : List PyVal}
    (h : itemsFree (x :: t) = true) :
    intNoneFree x = true ∧ itemsFree t = true := by
  simp [itemsFree, Bool.and_eq_true] at h
  tauto

mutual

theorem keyValue_error_builtin (v : PyVal) (hf : intNoneFree v = true)
    (e : PyErr) (h : keyValue v = .error e) : isBuiltinErr e = true := by
  cases v with
  | vStr s => exact absurd h (by simp [keyValue])
  | vInt n => exact absurd hf (by simp [intNoneFree])
  | vNone => exact absurd hf (by simp [intNoneFree])
  | vDict entries => exact kvFindItem_error_builtin entries hf e h
  | vList items =>
      replace h : (match kvFold items 0 [] with
          | Except.error e => (Except.error e : Except PyErr PyVal)
          | Except.ok d => Except.ok (PyVal.vDict d)) = Except.error e := h
      cases hk : kvFold items 0 [] with
      | error e2 =>
          rw [hk] at h
          replace h : (Except.error e2 : Except PyErr PyVal) = Except.error e := h
          cases h
          exact kvFold_error_builtin items hf 0 [] e hk
      | ok d =>
          rw [hk] at h
          exact absurd h (by simp)

theorem kvFindItem_error_builtin (entries : List (PyVal × PyVal))
    (hf : entriesFree entries = true) (e : PyErr)
    (h : kvFindItem entries = .error e) : isBuiltinErr e = true := by
  cases entries with
  | nil =>
      replace h : (Except.error (PyErr.keyError (PyVal.vStr "item")) :
          Except PyErr PyVal) = Except.error e := h
      cases h
      rfl
  | cons p rest =>
      obtain ⟨k, v⟩ := p
      obtain ⟨hk1, hv1, hr1⟩ := entriesFree_cons hf
      replace h : (if k = PyVal.vStr "item" then kvItem v else kvFindItem rest) =
          Except.error e := h
      by_cases hk : k = PyVal.vStr "item"
      · rw [if_pos hk] at h
        exact kvItem_error_builtin v hv1 e h
      · rw [if_neg hk] at h
        exact kvFindItem_error_builtin rest hr1 e h

theorem kvItem_error_builtin (it : PyVal) (hf : intNoneFree it = true)
    (e : PyErr) (h : kvItem it = .error e) : isBuiltinErr e = true := by
  cases it with
  | vStr s => exact absurd h (by simp [kvItem])
  | vInt n => exact absurd hf (by simp [intNoneFree])
  | vNone => exact absurd hf (by simp [intNoneFree])
  | vDict ientries =>
      replace h : (match assocLookup ientries (PyVal.vStr "key") with
          | none => (Except.error (PyErr.keyError (PyVal.vStr "key")) :
              Except PyErr PyVal)
          | some key =>
            match assocLookup ientries (PyVal.vStr "value") with
            | none => Except.error (PyErr.keyError (PyVal.vStr "value"))
            | some value =>
                if isHashable key then Except.ok (PyVal.vDict [(key, value)])
                else Except.error PyErr.typeError) = Except.error e := h
      cases hk : assocLookup ientries (PyVal.vStr "key") with
      | none =>
          rw [hk] at h
          replace h : (Except.error (PyErr.keyError (PyVal.vStr "key")) :
              Except PyErr PyVal) = Except.error e := h
          cases h
          rfl
      | some key =>
          rw [hk] at h
          replace h : (match assocLookup ientries (PyVal.vStr "value") with
              | none => (Except.error (PyErr.keyError (PyVal.vStr "value")) :
                  Except PyErr PyVal)
              | some value =>
                  if isHashable key then Except.ok (PyVal.vDict [(key, value)])
                  else Except.error PyErr.typeError) = Except.error e := h
          cases hv : assocLookup ientries (PyVal.vStr "value") with
          | none =>
              rw [hv] at h
              replace h : (Except.error (PyErr.keyError (PyVal.vStr "value")) :
                  Except PyErr PyVal) = Except.error e := h
              cases h
              rfl
          | some value =>
              rw [hv] at h
              replace h : (if isHashable key then
                  Except.ok (PyVal.vDict [(key, value)])
                else (Except.error PyErr.typeError : Except PyErr PyVal)) =
                  Except.error e := h
              by_cases hh : isHashable key
              · rw [if_pos hh] at h
                exact absurd h (by simp)
              · rw [if_neg hh] at h
                cases h
                rfl
  | vList itemList =>
      cases itemList with
      | nil =>
          replace h : (Except.error PyErr.indexError : Except PyErr PyVal) =
              Except.error e := h
          cases h
          rfl
      | cons first rest =>
          replace h : (match pySub first (PyVal.vStr "item") with
              | Except.error e => (Except.error e : Except PyErr PyVal)
              | Except.ok fitem =>
                match pySub fitem (PyVal.vStr "key") with
                | Except.error e => Except.error e
                | Except.ok fkey =>
                  if fkey = PyVal.vStr "listName" then
                    match pySub fitem (PyVal.vStr "value") with
                    | Except.error e => Except.error e
                    | Except.ok k =>
                      match kvListName (first :: rest) k [] with
                      | Except.error e => Except.error e
                      | Except.ok v =>
                          if isHashable k then
                            Except.ok (PyVal.vDict [(k, PyVal.vDict v)])
                          else Except.error PyErr.typeError
                  else
                    match pySub fitem (PyVal.vStr "value") with
                    | Except.error e => Except.error e
                    | Except.ok k =>
                      match displayScan (first :: rest) none with
                      | Except.error e => Except.error e
                      | Except.ok none => Except.error PyErr.unboundLocal
                      | Except.ok (some v) =>
                          if isHashable k then Except.ok (PyVal.vDict [(k, v)])
                          else Except.error PyErr.typeError) = Except.error e := h
          cases hs1 : pySub first (PyVal.vStr "item") with
          | error e1 =>
              rw [hs1] at h
              replace h : (Except.error e1 : Except PyErr PyVal) = Except.error e := h
              cases h
              exact pySub_error_builtin first _ _ hs1
          | ok fitem =>
              rw [hs1] at h
              replace h : (match pySub fitem (PyVal.vStr "key") with
                  | Except.error e => (Except.error e : Except PyErr PyVal)
                  | Except.ok fkey =>
                    if fkey = PyVal.vStr "listName" then
                      match pySub fitem (PyVal.vStr "value") with
                      | Except.error e => Except.error e
                      | Except.ok k =>
                        match kvListName (first :: rest) k [] with
                        | Except.error e => Except.error e
                        | Except.ok v =>
                            if isHashable k then
                              Except.ok (PyVal.vDict [(k, PyVal.vDict v)])
                            else Except.error PyErr.typeError
                    else
                      match pySub fitem (PyVal.vStr "value") with
                      | Except.error e => Except.error e
                      | Except.ok k =>
                        match displayScan (first :: rest) none with
                        | Except.error e => Except.error e
                        | Except.ok none => Except.error PyErr.unboundLocal
                        | Except.ok (some v) =>
                            if isHashable k then Except.ok (PyVal.vDict [(k, v)])
                            else Except.error PyErr.typeError) = Except.error e := h
              cases hs2 : pySub fitem (PyVal.vStr "key") with
              | error e2 =>
                  rw [hs2] at h
                  replace h : (Except.error e2 : Except PyErr PyVal) = Except.error e := h
                  cases h
                  exact pySub_error_builtin fitem _ _ hs2
              | ok fkey =>
                  rw [hs2] at h
                  replace h : (if fkey = PyVal.vStr "listName" then
                      match pySub fitem (PyVal.vStr "value") with
                      | Except.error e => (Except.error e : Except PyErr PyVal)
                      | Except.ok k =>
                        match kvListName (first :: rest) k [] with
                        | Except.error e => Except.error e
                        | Except.ok v =>
                            if isHashable k then
                              Except.ok (PyVal.vDict [(k, PyVal.vDict v)])
                            else Except.error PyErr.typeError
                    else
                      match pySub fitem (PyVal.vStr "value") with
                      | Except.error e => (Except.error e : Except PyErr PyVal)
                      | Except.ok k =>
                        match displayScan (first :: rest) none with
                        | Except.error e => Except.error e
                        | Except.ok none => Except.error PyErr.unboundLocal
                        | Except.ok (some v) =>
                            if isHashable k then Except.ok (PyVal.vDict [(k, v)])
                            else Except.error PyErr.typeError) = Except.error e := h
                  by_cases hlk : fkey = PyVal.vStr "listName"
                  · rw [if_pos hlk] at h
                    cases hs3 : pySub fitem (PyVal.vStr "value") with
                    | error e3 =>
                        rw [hs3] at h
                        replace h : (Except.error e3 : Except PyErr PyVal) =
                            Except.error e := h
                        cases h
                        exact pySub_error_builtin fitem _ _ hs3
                    | ok k =>
                        rw [hs3] at h
                        replace h : (match kvListName (first :: rest) k [] with
                            | Except.error e => (Except.error e : Except PyErr PyVal)
                            | Except.ok v =>
                                if isHashable k then
                                  Except.ok (PyVal.vDict [(k, PyVal.vDict v)])
                                else Except.error PyErr.typeError) =
                            Except.error e := h
                        cases hs4 : kvListName (first :: rest) k [] with
                        | error e4 =>
                            rw [hs4] at h
                            replace h : (Except.error e4 : Except PyErr PyVal) =
                                Except.error e := h
                            cases h
                            exact kvListName_error_builtin (first :: rest) hf k [] e hs4
                        | ok v =>
                            rw [hs4] at h
                            replace h : (if isHashable k then
                                Except.ok (PyVal.vDict [(k, PyVal.vDict v)])
                              else (Except.error PyErr.typeError :
                                Except PyErr PyVal)) = Except.error e := h
                            by_cases hh : isHashable k
                            · rw [if_pos hh] at h
                              exact absurd h (by simp)
                            · rw [if_neg hh] at h
                              cases h
                              rfl
                  · rw [if_neg hlk] at h
                    cases hs3 : pySub fitem (PyVal.vStr "value") with
                    | error e3 =>
                        rw [hs3] at h
                        replace h : (Except.error e3 : Except PyErr PyVal) =
                            Except.error e := h
                        cases h
                        exact pySub_error_builtin fitem _ _ hs3
                    | ok k =>
                        rw [hs3] at h
                        replace h : (match displayScan (first :: rest) none with
                            | Except.error e => (Except.error e : Except PyErr PyVal)
                            | Except.ok none => Except.error PyErr.unboundLocal
                            | Except.ok (some v) =>
                                if isHashable k then Except.ok (PyVal.vDict [(k, v)])
                                else Except.error PyErr.typeError) =
                            Except.error e := h
                        cases hs4 : displayScan (first :: rest) none with
                        | error e4 =>
                            rw [hs4] at h
                            replace h : (Except.error e4 : Except PyErr PyVal) =
                                Except.error e := h
                            cases h
                            exact displayScan_error_builtin (first :: rest) none _ hs4
                        | ok vo =>
                            rw [hs4] at h
                            cases vo with
                            | none =>
                                replace h : (Except.error PyErr.unboundLocal :
                                    Except PyErr PyVal) = Except.error e := h
                                cases h
                                rfl
                            | some v =>
                                replace h : (if isHashable k then
                                    Except.ok (PyVal.vDict [(k, v)])
                                  else (Except.error PyErr.typeError :
                                    Except PyErr PyVal)) = Except.error e := h
                                by_cases hh : isHashable k
                                · rw [if_pos hh] at h
                                  exact absurd h (by simp)
                                · rw [if_neg hh] at h
                                  cases h
                                  rfl

theorem kvListName_error_builtin (l : List PyVal) (hf : itemsFree l = true)
    (k : PyVal) (acc : List (PyVal × PyVal)) (e : PyErr)
    (h : kvListName l k acc = .error e) : isBuiltinErr e = true := by
  cases l with
  | nil => exact absurd h (by simp [kvListName])
  | cons kv rest =>
      obtain ⟨hkv, hrest⟩ := itemsFree_cons hf
      replace h : (match pySub kv (PyVal.vStr "item") with
          | Except.error e => (Except.error e : Except PyErr (List (PyVal × PyVal)))
          | Except.ok it =>
            match pySub it (PyVal.vStr "value") with
            | Except.error e => Except.error e
            | Except.ok value =>
              if value = k then kvListName rest k acc
              else
                match keyValue kv with
                | Except.error e => Except.error e
                | Except.ok r =>
                  match pyUpdate acc r with
                  | Except.error e => Except.error e
                  | Except.ok v2 => kvListName rest k v2) = Except.error e := h
      cases hs1 : pySub kv (PyVal.vStr "item") with
      | error e1 =>
          rw [hs1] at h
          replace h : (Except.error e1 : Except PyErr (List (PyVal × PyVal))) =
              Except.error e := h
          cases h
          exact pySub_error_builtin kv _ _ hs1
      | ok it =>
          rw [hs1] at h
          replace h : (match pySub it (PyVal.vStr "value") with
              | Except.error e => (Except.error e : Except PyErr (List (PyVal × PyVal)))
              | Except.ok value =>
                if value = k then kvListName rest k acc
                else
                  match keyValue kv with
                  | Except.error e => Except.error e
                  | Except.ok r =>
                    match pyUpdate acc r with
                    | Except.error e => Except.error e
                    | Except.ok v2 => kvListName rest k v2) = Except.error e := h
          cases hs2 : pySub it (PyVal.vStr "value") with
          | error e2 =>
              rw [hs2] at h
              replace h : (Except.error e2 : Except PyErr (List (PyVal × PyVal))) =
                  Except.error e := h
              cases h
              exact pySub_error_builtin it _ _ hs2
          | ok value =>
              rw [hs2] at h
              replace h : (if value = k then kvListName rest k acc
                  else
                    match keyValue kv with
                    | Except.error e =>
                        (Except.error e : Except PyErr (List (PyVal × PyVal)))
                    | Except.ok r =>
                      match pyUpdate acc r with
                      | Except.error e => Except.error e
                      | Except.ok v2 => kvListName rest k v2) = Except.error e := h
              by_cases hv : value = k
              · rw [if_pos hv] at h
                exact kvListName_error_builtin rest hrest k acc e h
              · rw [if_neg hv] at h
                cases hs3 : keyValue kv with
                | error e3 =>
                    rw [hs3] at h
                    replace h : (Except.error e3 :
                        Except PyErr (List (PyVal × PyVal))) = Except.error e := h
                    cases h
                    exact keyValue_error_builtin kv hkv e hs3
                | ok r =>
                    rw [hs3] at h
                    replace h : (match pyUpdate acc r with
                        | Except.error e =>
                            (Except.error e : Except PyErr (List (PyVal × PyVal)))
                        | Except.ok v2 => kvListName rest k v2) = Except.error e := h
                    cases hs4 : pyUpdate acc r with
                    | error e4 =>
                        rw [hs4] at h
                        replace h : (Except.error e4 :
                            Except PyErr (List (PyVal × PyVal))) = Except.error e := h
                        cases h
                        exact pyUpdate_error_builtin acc r e hs4
                    | ok v2 =>
                        rw [hs4] at h
                        exact kvListName_error_builtin rest hrest k v2 e h

theorem kvFold_error_builtin (l : List PyVal) (hf : itemsFree l = true)
    (i : Nat) (acc : List (PyVal × PyVal)) (e : PyErr)
    (h : kvFold l i acc = .error e) : isBuiltinErr e = true := by
  cases l with
  | nil => exact absurd h (by simp [kvFold])
  | cons child rest =>
      obtain ⟨hchild, hrest⟩ := itemsFree_cons hf
      cases hs1 : keyValue child with
      | ok r =>
          replace h : (match pyUpdate acc r with
              | Except.ok acc2 => kvFold rest (i + 1) acc2
              | Except.error e0 =>
                  if e0 = PyErr.typeError ∨ e0 = PyErr.valueError then
                    match pySub child (PyVal.vStr "item") with
                    | Except.error e2 =>
                        (Except.error e2 : Except PyErr (List (PyVal × PyVal)))
                    | Except.ok raw =>
                        kvFold rest (i + 1) (assocSet acc (PyVal.vInt i) raw)
                  else Except.error e0) = Except.error e := by
            rw [show kvFold (child :: rest) i acc =
                (match (match keyValue child with
                        | Except.ok q => pyUpdate acc q
                        | Except.error e => Except.error e) with
                 | Except.ok acc2 => kvFold rest (i + 1) acc2
                 | Except.error e0 =>
                     if e0 = PyErr.typeError ∨ e0 = PyErr.valueError then
                       match pySub child (PyVal.vStr "item") with
                       | Except.error e2 => Except.error e2
                       | Except.ok raw =>
                           kvFold rest (i + 1) (assocSet acc (PyVal.vInt i) raw)
                     else Except.error e0) from rfl, hs1] at h
            exact h
          cases hs2 : pyUpdate acc r with
          | ok acc2 =>
              rw [hs2] at h
              replace h : kvFold rest (i + 1) acc2 = Except.error e := h
              exact kvFold_error_builtin rest hrest (i + 1) acc2 e h
          | error e0 =>
              rw [hs2] at h
              replace h : (if e0 = PyErr.typeError ∨ e0 = PyErr.valueError then
                  match pySub child (PyVal.vStr "item") with
                  | Except.error e2 =>
                      (Except.error e2 : Except PyErr (List (PyVal × PyVal)))
                  | Except.ok raw =>
                      kvFold rest (i + 1) (assocSet acc (PyVal.vInt i) raw)
                else Except.error e0) = Except.error e := h
              by_cases ht : e0 = PyErr.typeError ∨ e0 = PyErr.valueError
              · rw [if_pos ht] at h
                cases hs3 : pySub child (PyVal.vStr "item") with
                | error e2 =>
                    rw [hs3] at h
                    replace h : (Except.error e2 :
                        Except PyErr (List (PyVal × PyVal))) = Except.error e := h
                    cases h
                    exact pySub_error_builtin child _ _ hs3
                | ok raw =>
                    rw [hs3] at h
                    replace h : kvFold rest (i + 1)
                        (assocSet acc (PyVal.vInt i) raw) = Except.error e := h
                    exact kvFold_error_builtin rest hrest (i + 1) _ e h
              · rw [if_neg ht] at h
                replace h : (Except.error e0 :
                    Except PyErr (List (PyVal × PyVal))) = Except.error e := h
                cases h
                exact pyUpdate_error_builtin acc r e hs2
      | error e1 =>
          replace h : (if e1 = PyErr.typeError ∨ e1 = PyErr.valueError then
              match pySub child (PyVal.vStr "item") with
              | Except.error e2 =>
                  (Except.error e2 : Except PyErr (List (PyVal × PyVal)))
              | Except.ok raw =>
                  kvFold rest (i + 1) (assocSet acc (PyVal.vInt i) raw)
            else Except.error e1) = Except.error e := by
            rw [show kvFold (child :: rest) i acc =
                (match (match keyValue child with
                        | Except.ok q => pyUpdate acc q
                        | Except.error e => Except.error e) with
                 | Except.ok acc2 => kvFold rest (i + 1) acc2
                 | Except.error e0 =>
                     if e0 = PyErr.typeError ∨ e0 = PyErr.valueError then
                       match pySub child (PyVal.vStr "item") with
                       | Except.error e2 => Except.error e2
                       | Except.ok raw =>
                           kvFold rest (i + 1) (assocSet acc (PyVal.vInt i) raw)
                     else Except.error e0) from rfl, hs1] at h
            exact h
          by_cases ht : e1 = PyErr.typeError ∨ e1 = PyErr.valueError
          · rw [if_pos ht] at h
            cases hs3 : pySub child (PyVal.vStr "item") with
            | error e2 =>
                rw [hs3] at h
                replace h : (Except.error e2 :
                    Except PyErr (List (PyVal × PyVal))) = Except.error e := h
                cases h
                exact pySub_error_builtin child _ _ hs3
            | ok raw =>
                rw [hs3] at h
                replace h : kvFold rest (i + 1)
                    (assocSet acc (PyVal.vInt i) raw) = Except.error e := h
                exact kvFold_error_builtin rest hrest (i + 1) _ e h
          · rw [if_neg ht] at h
            replace h : (Except.error e1 :
                Except PyErr (List (PyVal × PyVal))) = Except.error e := h
            cases h
            exact keyValue_error_builtin child hchild e hs1

end

end DrsResponse

/-! ## Claim C5 — the failure taxonomy -/

namespace DrsResponse

open PyVal

/-- C5 (amended): a tree lacking the expected envelope path — at any of
the four levels, whether the failing subscript raises `KeyError` or
`TypeError` — makes `reduce` fail with exactly that builtin exception,
not `ResponseParseError`; on any payload free of int/None nodes (every
tree the XML parser produces is), *every* failure of the key-value
unwrapping is a builtin Python exception, so neither
`ResponseParseError` nor `ServiceError` can arise from a mismatched
shape there; `DrsParserError` fires exactly when a mapping's `"item"`
entry is an int or `None` — shapes the parser never emits. -/
theorem drs_parse_error_taxonomy :
    (∀ (d : PyVal) (e : PyErr), envDescend d = .error e →
        drsReduceDict d = .error e ∧ isBuiltinErr e = true) ∧
    (∀ (v : PyVal) (e : PyErr), intNoneFree v = true →
        keyValue v = .error e → isBuiltinErr e = true) ∧
    (∀ (entries : List (PyVal × PyVal)) (n : Nat),
        assocLookup entries (.vStr "item") = some (.vInt n) →
        keyValue (.vDict entries) = .error .drsParserError) ∧
    (∀ entries : List (PyVal × PyVal),
        assocLookup entries (.vStr "item") = some PyVal.vNone →
        keyValue (.vDict entries) = .error .drsParserError) := by
  refine ⟨fun d e h =>
      ⟨drsReduceDict_of_descend_error d e h, envDescend_error_builtin d e h⟩,
    fun v e hf h => keyValue_error_builtin v hf e h,
    fun entries n h => ?_, fun entries h => ?_⟩
  · rw [show keyValue (.vDict entries) = kvFindItem entries from rfl,
      kvFindItem_lookup entries _ h]
    rfl
  · rw [show keyValue (.vDict entries) = kvFindItem entries from rfl,
      kvFindItem_lookup entries _ h]
    rfl

/-- C5 witness: a path that fails at the second level with `TypeError`
propagates as `TypeError`; a first-layer mapping without an `"item"`
entry (an int/None-free tree) fails with the builtin `KeyError`; an
`"item"` entry that is an int or `None` is exactly what raises
`DrsParserError`. -/
theorem drs_parse_error_taxonomy_witness :
    (drsReduceDict (.vDict [(.vStr "Envelope", .vStr "x")]) =
        .error .typeError ∧ isBuiltinErr .typeError = true) ∧
    isBuiltinErr (.keyError (.vStr "item")) = true ∧
    keyValue (.vDict [(.vStr "item", .vInt 0)]) = .error .drsParserError ∧
    keyValue (.vDict [(.vStr "item", .vNone)]) = .error .drsParserError := by
  exact ⟨drs_parse_error_taxonomy.1 (.vDict [(.vStr "Envelope", .vStr "x")])
      .typeError (by decide),
    drs_parse_error_taxonomy.2.1 (.vDict [(.vStr "a", .vStr "b")])
      (.keyError (.vStr "item")) (by decide) (by decide),
    drs_parse_error_taxonomy.2.2.1 [(.vStr "item", .vInt 0)] 0 (by decide),
    drs_parse_error_taxonomy.2.2.2 [(.vStr "item", .vNone)] (by decide)⟩

end DrsResponse
